import Mathlib

/-!
Shallow embedding of the crawl-be job orchestration and streaming-event subsystem.

The definitions below are translated from the TypeScript source:
* `src/types/crawl.ts`, `src/types/jobs.ts` — data model (categories, requests,
  stream events, job records);
* `src/crawlers/baseCrawler.ts` — `BaseCrawler.crawl` / `crawlList` / `crawlDetail`
  (run orchestrator: handler lookup, event stamping, success/failure event sequences);
* `src/services/persistence.service.ts` — `PersistenceService.persist`;
* `src/services/crawl.service.ts` — `CrawlService.crawl`;
* `src/services/crawlJob.service.ts` — `CrawlJobService` (job registry, FIFO queue,
  lazily-kicked single worker loop).

JavaScript asynchrony is modelled operationally: an `async` function runs
synchronously up to its first `await`, so `createJob`'s `void this.processQueue()`
executes the loop body — including `runJob`'s mutation of the job record to
`running` — before `createJob` returns.  The suspension point (the crawl await) is
represented by the `pendingRun` field; delivery of stream events and settlement of
the pending crawl promise are explicit transition steps.
-/

namespace CrawlBe

/-- `Category` from `src/types/crawl.ts`: the six crawl categories. -/
inductive Category : Type
  | news | hotels | restaurant | attraction | maps | landmarks
deriving DecidableEq, Repr

/-- String rendering of a category, as produced by template interpolation of the
`category` field in the source's error messages. -/
def Category.render : Category → String
  | .news => "news"
  | .hotels => "hotels"
  | .restaurant => "restaurant"
  | .attraction => "attraction"
  | .maps => "maps"
  | .landmarks => "landmarks"

/-- The extracted payload (`CrawlResultData` in `src/types/crawl.ts`).  Its internal
structure (hotel/restaurant/... item fields) is business data that the orchestration
layer passes through opaquely; it is modelled by its serialized form. -/
abbrev CrawlResultData := String

/-- `BaseCrawlRequest` from `src/types/crawl.ts` (tuning options and attribution
fields are passed through unchanged and do not affect control flow at this layer). -/
structure BaseCrawlRequest where
  category : Category
  site : String
  url : String
deriving DecidableEq, Repr

/-- The four-variant event payload of `StreamEvent` (`src/types/crawl.ts`):
progress / data / error / complete, without the correlation fields. -/
inductive EventBody : Type
  | progress (message : String) (progress : Option Nat)
  | data (payload : List CrawlResultData) (index : Option Nat) (total : Option Nat)
  | error (error : String)
  | complete (totalItems : Option Nat) (duration : Option Nat)
deriving DecidableEq, Repr

/-- An event as raised by a site handler through the stream callback
(`PartialStreamEvent`): the correlation id and timestamp fields are optional and
may also be present with a JavaScript-falsy value (empty string, `0`). -/
structure RawStreamEvent where
  body : EventBody
  requestId : Option String
  timestamp : Option Nat
deriving DecidableEq, Repr

/-- A fully stamped `StreamEvent`: every delivered event carries a correlation id
and a timestamp. -/
structure StreamEvent where
  body : EventBody
  requestId : String
  timestamp : Nat
deriving DecidableEq, Repr

/-- JavaScript `x || dflt` on an optional string field: `undefined` and the empty
string are falsy. -/
def jsOrStr (x : Option String) (dflt : String) : String :=
  match x with
  | none => dflt
  | some s => if s = "" then dflt else s

/-- JavaScript `x || dflt` on an optional number field: `undefined` and `0` are
falsy. -/
def jsOrNat (x : Option Nat) (dflt : Nat) : Nat :=
  match x with
  | none => dflt
  | some n => if n = 0 then dflt else n

/-- `emitEvent` in `BaseCrawler.crawl`: the orchestrator's own events are stamped
with the run's `requestId` and the current time, unconditionally. -/
def stampOwn (runId : String) (now : Nat) (b : EventBody) : StreamEvent :=
  { body := b, requestId := runId, timestamp := now }

/-- `wrappedStreamCallback` in `BaseCrawler.crawl`: a handler-raised event keeps a
truthy `requestId`/`timestamp` it already carries and is otherwise stamped with the
run's id and the current time
(`requestId: (event as any).requestId || requestId`). -/
def stampWrapped (runId : String) (now : Nat) (e : RawStreamEvent) : StreamEvent :=
  { body := e.body
    requestId := jsOrStr e.requestId runId
    timestamp := jsOrNat e.timestamp now }

/-- Stamp a list of handler-raised events, one clock tick apart. -/
def stampWrappedList (runId : String) (t : Nat) : List RawStreamEvent → List StreamEvent
  | [] => []
  | e :: es => stampWrapped runId t e :: stampWrappedList runId (t + 1) es

instance {ε α : Type} [DecidableEq ε] [DecidableEq α] : DecidableEq (Except ε α) :=
  fun x y =>
    match x, y with
    | .ok a, .ok b =>
        if h : a = b then isTrue (by rw [h])
        else isFalse (by intro hc; cases hc; exact h rfl)
    | .error a, .error b =>
        if h : a = b then isTrue (by rw [h])
        else isFalse (by intro hc; cases hc; exact h rfl)
    | .ok _, .error _ => isFalse (by intro hc; cases hc)
    | .error _, .ok _ => isFalse (by intro hc; cases hc)

/-- Observable behaviour of one `SiteHandler` (or `DetailHandler`) invocation: the
events it raises through the callback, then either an exception (`.error msg`) or a
returned value (`.ok none` models returning a JavaScript-falsy value, which the
orchestrator's `if (!result)` check treats as no data). -/
structure SiteHandlerBehavior where
  events : List RawStreamEvent
  outcome : Except String (Option CrawlResultData)
deriving DecidableEq, Repr

/-- Observable behaviour of one `ListHandler` invocation.  A list handler that
succeeds always assigns an array to `result`, and in JavaScript every array —
including `[]` — is truthy, so there is no `.ok none` case. -/
structure ListHandlerBehavior where
  events : List RawStreamEvent
  outcome : Except String (List CrawlResultData)
deriving DecidableEq, Repr

/-- Outcome of one orchestrated run: how many isolated execution contexts
(`PlaywrightCrawler` instances, each with its own browser context) were allocated,
the stamped events delivered to the sink in order, and the value returned or the
exception propagated to the caller. -/
structure CrawlRun (α : Type) where
  contextsAllocated : Nat
  events : List StreamEvent
  outcome : Except String α
deriving DecidableEq, Repr

/-- `Unsupported site '${site}' for category ${category}` (baseCrawler.ts line 88). -/
def unsupportedSiteMsg (req : BaseCrawlRequest) : String :=
  "Unsupported site '" ++ req.site ++ "' for category " ++ req.category.render

/-- `Failed to crawl data for site '${site}'` (baseCrawler.ts line 223). -/
def failedCrawlMsg (req : BaseCrawlRequest) : String :=
  "Failed to crawl data for site '" ++ req.site ++ "'"

/-- `BaseCrawler.crawl` (baseCrawler.ts lines 82-242).  Parameters beyond the
source's own: `siteHandlers` is the handler table the crawler subclass was
constructed with, `runId` the `randomUUID()` drawn for this run, `t0` the starting
clock, `nav` the outcome of `page.goto` (the navigation attempt), and `hb` gives the
site handler's behaviour when invoked.  Event sequence and failure paths follow the
source: handler lookup failure throws before any `PlaywrightCrawler` is created and
before any event is emitted; the requestHandler emits progress 10/30/50, runs the
handler, and emits progress 100; the outer try emits `complete` on success and an
`error` event carrying the failure message on any failure. -/
def BaseCrawler.crawl (siteHandlers : String → Option SiteHandlerBehavior)
    (req : BaseCrawlRequest) (runId : String) (t0 : Nat)
    (nav : Except String Unit) : CrawlRun CrawlResultData :=
  match siteHandlers req.site with
  | none =>
      { contextsAllocated := 0, events := [], outcome := .error (unsupportedSiteMsg req) }
  | some hb =>
    let p0 := stampOwn runId t0
      (.progress ("Starting crawl for " ++ req.site ++ "...") (some 0))
    let p10 := stampOwn runId (t0 + 1) (.progress "Loading page..." (some 10))
    match nav with
    | .error m =>
        { contextsAllocated := 1
          events := [p0, p10, stampOwn runId (t0 + 2) (.error m)]
          outcome := .error m }
    | .ok _ =>
      let p30 := stampOwn runId (t0 + 2)
        (.progress "Page loaded, extracting data..." (some 30))
      let p50 := stampOwn runId (t0 + 3) (.progress "Processing data..." (some 50))
      let hEvents := stampWrappedList runId (t0 + 4) hb.events
      let tA := t0 + 4 + hb.events.length
      match hb.outcome with
      | .error m =>
          { contextsAllocated := 1
            events := [p0, p10, p30, p50] ++ hEvents ++ [stampOwn runId tA (.error m)]
            outcome := .error m }
      | .ok none =>
          { contextsAllocated := 1
            events := [p0, p10, p30, p50] ++ hEvents ++
              [stampOwn runId tA (.progress "Crawl completed" (some 100)),
               stampOwn runId (tA + 1) (.error (failedCrawlMsg req))]
            outcome := .error (failedCrawlMsg req) }
      | .ok (some item) =>
          { contextsAllocated := 1
            events := [p0, p10, p30, p50] ++ hEvents ++
              [stampOwn runId tA (.progress "Crawl completed" (some 100)),
               stampOwn runId (tA + 1) (.complete (some 1) (some (tA + 1 - t0)))]
            outcome := .ok item }

/-- `Unsupported site '${site}' for list crawl in category ${category}` (line 251). -/
def unsupportedListMsg (req : BaseCrawlRequest) : String :=
  "Unsupported site '" ++ req.site ++ "' for list crawl in category " ++
    req.category.render

/-- `Failed to crawl list data for site '${site}'` (line 350). -/
def failedListMsg (req : BaseCrawlRequest) : String :=
  "Failed to crawl list data for site '" ++ req.site ++ "'"

/-- `BaseCrawler.crawlList` (baseCrawler.ts lines 245-369).  Mirrors `crawl`, with
the list-handler table and list-specific messages.  Note the `if (!result)` check:
a list handler that succeeds assigns an array, and every array (even `[]`) is
truthy, so a successful-but-empty run completes successfully with
`totalItems = 0`. -/
def BaseCrawler.crawlList (listHandlers : String → Option ListHandlerBehavior)
    (req : BaseCrawlRequest) (runId : String) (t0 : Nat)
    (nav : Except String Unit) : CrawlRun (List CrawlResultData) :=
  match listHandlers req.site with
  | none =>
      { contextsAllocated := 0, events := [], outcome := .error (unsupportedListMsg req) }
  | some hb =>
    let p0 := stampOwn runId t0
      (.progress ("Starting list crawl for " ++ req.site ++ "...") (some 0))
    let p10 := stampOwn runId (t0 + 1) (.progress "Loading page..." (some 10))
    match nav with
    | .error m =>
        { contextsAllocated := 1
          events := [p0, p10, stampOwn runId (t0 + 2) (.error m)]
          outcome := .error m }
    | .ok _ =>
      let p30 := stampOwn runId (t0 + 2)
        (.progress "Page loaded, extracting data..." (some 30))
      let p50 := stampOwn runId (t0 + 3) (.progress "Processing data..." (some 50))
      let hEvents := stampWrappedList runId (t0 + 4) hb.events
      let tA := t0 + 4 + hb.events.length
      match hb.outcome with
      | .error m =>
          { contextsAllocated := 1
            events := [p0, p10, p30, p50] ++ hEvents ++ [stampOwn runId tA (.error m)]
            outcome := .error m }
      | .ok items =>
          { contextsAllocated := 1
            events := [p0, p10, p30, p50] ++ hEvents ++
              [stampOwn runId tA (.progress "Crawl list completed" (some 100)),
               stampOwn runId (tA + 1)
                 (.complete (some items.length) (some (tA + 1 - t0)))]
            outcome := .ok items }

/-- `Unsupported site '${site}' for detail crawl in category ${category} ` — the
source template carries a trailing space (line 377). -/
def unsupportedDetailMsg (req : BaseCrawlRequest) : String :=
  "Unsupported site '" ++ req.site ++ "' for detail crawl in category " ++
    req.category.render ++ " "

/-- `Failed to crawl detail data for site '${site}'` (line 475). -/
def failedDetailMsg (req : BaseCrawlRequest) : String :=
  "Failed to crawl detail data for site '" ++ req.site ++ "'"

/-- `BaseCrawler.crawlDetail` (baseCrawler.ts lines 371-494): identical control
flow to `crawl` over the detail-handler table. -/
def BaseCrawler.crawlDetail (detailHandlers : String → Option SiteHandlerBehavior)
    (req : BaseCrawlRequest) (runId : String) (t0 : Nat)
    (nav : Except String Unit) : CrawlRun CrawlResultData :=
  match detailHandlers req.site with
  | none =>
      { contextsAllocated := 0, events := []
        outcome := .error (unsupportedDetailMsg req) }
  | some hb =>
    let p0 := stampOwn runId t0
      (.progress ("Starting detail crawl for " ++ req.site ++ "...") (some 0))
    let p10 := stampOwn runId (t0 + 1) (.progress "Loading page..." (some 10))
    match nav with
    | .error m =>
        { contextsAllocated := 1
          events := [p0, p10, stampOwn runId (t0 + 2) (.error m)]
          outcome := .error m }
    | .ok _ =>
      let p30 := stampOwn runId (t0 + 2)
        (.progress "Page loaded, extracting data..." (some 30))
      let p50 := stampOwn runId (t0 + 3) (.progress "Processing data..." (some 50))
      let hEvents := stampWrappedList runId (t0 + 4) hb.events
      let tA := t0 + 4 + hb.events.length
      match hb.outcome with
      | .error m =>
          { contextsAllocated := 1
            events := [p0, p10, p30, p50] ++ hEvents ++ [stampOwn runId tA (.error m)]
            outcome := .error m }
      | .ok none =>
          { contextsAllocated := 1
            events := [p0, p10, p30, p50] ++ hEvents ++
              [stampOwn runId tA (.progress "Crawl detail completed" (some 100)),
               stampOwn runId (tA + 1) (.error (failedDetailMsg req))]
            outcome := .error (failedDetailMsg req) }
      | .ok (some item) =>
          { contextsAllocated := 1
            events := [p0, p10, p30, p50] ++ hEvents ++
              [stampOwn runId tA (.progress "Crawl detail completed" (some 100)),
               stampOwn runId (tA + 1) (.complete (some 1) (some (tA + 1 - t0)))]
            outcome := .ok item }

/-- `PersistenceService.persist` (persistence.service.ts lines 31-47): look up the
per-category persist handler (`hotels`/`maps`/`landmarks`/`restaurant` are
registered, other categories have none); a missing handler is a no-op; a handler
invocation is wrapped in try/catch — a handler failure is logged and swallowed.
`persistHandlers` gives, per category, `none` for no registered handler or the
outcome the registered handler would produce on this call.  The return value is the
promise outcome of `persist`: it is `.ok` in every case. -/
def PersistenceService.persist
    (persistHandlers : Category → Option (Except String Unit)) (cat : Category) :
    Except String Unit :=
  match persistHandlers cat with
  | none => .ok ()
  | some (.ok _) => .ok ()
  | some (.error _) => .ok ()

/-- `CrawlService.crawl` (crawl.service.ts lines 31-43): resolve the per-category
crawler (the `crawlers` record is total over `Category`), run its `crawl`, then
`await persist(request, data)` before returning the data.  `crawlers` maps each
category to that crawler subclass's site-handler table. -/
def CrawlService.crawl
    (crawlers : Category → String → Option SiteHandlerBehavior)
    (persistHandlers : Category → Option (Except String Unit))
    (req : BaseCrawlRequest) (runId : String) (t0 : Nat)
    (nav : Except String Unit) : CrawlRun CrawlResultData :=
  let run := BaseCrawler.crawl (crawlers req.category) req runId t0 nav
  match run.outcome with
  | .error _ => run
  | .ok _ =>
    match PersistenceService.persist persistHandlers req.category with
    | .ok _ => run
    | .error m => { run with outcome := .error m }

/-- `CrawlJobStatus` from `src/types/jobs.ts`. -/
inductive CrawlJobStatus : Type
  | queued | running | done | error
deriving DecidableEq, Repr

/-- `CrawlJobRecord` from `src/types/jobs.ts`.  `randomUUID()` job ids are
modelled by naturals drawn from a fresh counter; ISO timestamp strings by the
service clock value at which they were stamped. -/
structure CrawlJobRecord where
  jobId : Nat
  status : CrawlJobStatus
  progress : Nat
  currentStep : Option String
  createdAt : Nat
  startedAt : Option Nat := none
  finishedAt : Option Nat := none
  errorMessage : Option String := none
  params : BaseCrawlRequest
deriving DecidableEq, Repr

/-- The mutable state of the `CrawlJobService` singleton (crawlJob.service.ts):
the `jobs` and `results` maps, the FIFO `queue` of job ids, and the `isProcessing`
flag.  `pendingRun` marks the suspension point of the worker loop: `some j` when
`runJob j` is suspended at `await this.crawlService.crawl(...)` awaiting that run's
promise.  `nextId` feeds fresh job ids and `clock` fresh timestamps. -/
structure ServiceState where
  jobs : Nat → Option CrawlJobRecord
  results : Nat → Option CrawlResultData
  queue : List Nat
  isProcessing : Bool
  pendingRun : Option Nat
  nextId : Nat
  clock : Nat

/-- Pointwise update of a map. -/
def mapSet {α : Type} (m : Nat → Option α) (id : Nat) (v : Option α) :
    Nat → Option α :=
  fun k => if k = id then v else m k

/-- The state of the service at process start: empty maps, empty queue, idle. -/
def initState : ServiceState :=
  { jobs := fun _ => none
    results := fun _ => none
    queue := []
    isProcessing := false
    pendingRun := none
    nextId := 0
    clock := 0 }

/-- The synchronous part of the `while (this.queue.length > 0)` loop of
`processQueue` (crawlJob.service.ts lines 383-394) together with the synchronous
head of `runJob` (lines 399-411): pop ids off the queue until one with a stored
record is found; mark that job `running`, stamp `startedAt`, set
`currentStep = 'Initializing crawler'`, and suspend at the crawl await
(`pendingRun := some jobId`).  If the queue empties, the loop exits and
`isProcessing` is cleared (line 396).  `runJob` on a missing record returns at
once and the loop continues with the next id. -/
def startLoop (s : ServiceState) : List Nat → ServiceState
  | [] => { s with queue := [], isProcessing := false, pendingRun := none }
  | jobId :: rest =>
    match s.jobs jobId with
    | none => startLoop s rest
    | some job =>
        { s with
          queue := rest
          jobs := mapSet s.jobs jobId (some
            { job with
              status := .running
              startedAt := some s.clock
              currentStep := some "Initializing crawler" })
          pendingRun := some jobId
          clock := s.clock + 1 }

/-- `CrawlJobService.createJob` (lines 349-365): allocate a fresh id, store a
`queued` record with progress 0, push the id on the queue, then
`void this.processQueue()`.  Because a JavaScript `async` function body runs
synchronously up to its first `await`, that call executes the `isProcessing` guard
and — when the worker was idle — the first loop iteration including `runJob`'s
synchronous head, before `createJob` resumes.  `return { ...job }` then copies the
stored record as it stands at that point. -/
def createJob (s : ServiceState) (req : BaseCrawlRequest) :
    CrawlJobRecord × ServiceState :=
  let jobId := s.nextId
  let job : CrawlJobRecord :=
    { jobId := jobId
      status := .queued
      progress := 0
      currentStep := some "Queued"
      createdAt := s.clock
      params := req }
  let s₁ : ServiceState :=
    { s with
      jobs := mapSet s.jobs jobId (some job)
      queue := s.queue ++ [jobId]
      nextId := s.nextId + 1
      clock := s.clock + 1 }
  let s₂ := if s₁.isProcessing then s₁ else startLoop { s₁ with isProcessing := true } s₁.queue
  match s₂.jobs jobId with
  | some stored => (stored, s₂)
  | none => (job, s₂)

/-- `CrawlJobService.getJob` (lines 367-370): read-only snapshot lookup (the
source returns a spread copy; records are immutable values here). -/
def getJob (s : ServiceState) (jobId : Nat) : Option CrawlJobRecord :=
  s.jobs jobId

/-- `CrawlJobService.getResult` (lines 372-374). -/
def getResult (s : ServiceState) (jobId : Nat) : Option CrawlResultData :=
  s.results jobId

/-- `CrawlJobService.handleStreamEvent` (lines 433-459): fold one stream event
into the job record.  `progress` events update `progress` when the numeric field
is present and `currentStep` when the message is truthy; `error` events record the
message in `currentStep` and `errorMessage`; `complete` events force progress 100;
`data` events are ignored.  A missing record is a no-op. -/
def handleStreamEvent (s : ServiceState) (jobId : Nat) (e : StreamEvent) :
    ServiceState :=
  match s.jobs jobId with
  | none => s
  | some job =>
    match e.body with
    | .progress msg p =>
        let job₁ := match p with
          | some n => { job with progress := n }
          | none => job
        let job₂ := if msg = "" then job₁ else { job₁ with currentStep := some msg }
        { s with jobs := mapSet s.jobs jobId (some job₂) }
    | .error err =>
        { s with jobs := mapSet s.jobs jobId (some
            { job with currentStep := some err, errorMessage := some err }) }
    | .complete _ _ =>
        { s with jobs := mapSet s.jobs jobId (some
            { job with progress := 100, currentStep := some "Completed" }) }
    | .data _ _ _ => s

/-- Delivery of one stream event of the in-flight run: the `streamCallback`
closure built in `runJob` (lines 409-411) invokes `handleStreamEvent` with the id
of the job whose crawl is pending. -/
def deliverEvent (s : ServiceState) (e : StreamEvent) : ServiceState :=
  match s.pendingRun with
  | none => s
  | some jobId => handleStreamEvent s jobId e

/-- Settlement of the pending crawl promise: the remainder of `runJob`
(lines 413-430).  On fulfilment the result is stored and the job marked `done`
with progress 100 and `finishedAt` stamped; on rejection the job is marked
`error` with the captured message.  Control then returns to the `processQueue`
loop, which pulls the next queued id (`startLoop`) or goes idle. -/
def settlePending (s : ServiceState) (outcome : Except String CrawlResultData) :
    ServiceState :=
  match s.pendingRun with
  | none => s
  | some jobId =>
    let s₁ : ServiceState :=
      match s.jobs jobId, outcome with
      | some job, .ok data =>
          { s with
            results := mapSet s.results jobId (some data)
            jobs := mapSet s.jobs jobId (some
              { job with
                status := .done
                progress := 100
                currentStep := some "Completed"
                finishedAt := some s.clock })
            clock := s.clock + 1 }
      | some job, .error msg =>
          { s with
            jobs := mapSet s.jobs jobId (some
              { job with
                status := .error
                errorMessage := some msg
                finishedAt := some s.clock
                currentStep := some "Failed" })
            clock := s.clock + 1 }
      | none, _ => s
    startLoop { s₁ with pendingRun := none } s₁.queue

/-- One observable transition of the job service: an external `createJob`
submission, delivery of one stream event to the in-flight run's callback, or
settlement of the in-flight run's crawl promise. -/
inductive Step : ServiceState → ServiceState → Prop
  | submit (s : ServiceState) (req : BaseCrawlRequest) : Step s (createJob s req).2
  | deliver (s : ServiceState) (e : StreamEvent) : Step s (deliverEvent s e)
  | settle (s : ServiceState) (outcome : Except String CrawlResultData) :
      Step s (settlePending s outcome)

/-- States reachable from process start. -/
def Reachable (s : ServiceState) : Prop :=
  Relation.ReflTransGen Step initState s

/-- Run the worker to completion: repeatedly settle the pending run, taking each
run's outcome from `oracle` (keyed by job id), until the worker goes idle.
`fuel` bounds the number of settlements; `s.queue.length + 1` suffices. -/
def drain (oracle : Nat → Except String CrawlResultData) :
    Nat → ServiceState → ServiceState
  | 0, s => s
  | fuel + 1, s =>
    match s.pendingRun with
    | none => s
    | some jobId => drain oracle fuel (settlePending s (oracle jobId))

/-- `done` and `error` are the terminal statuses. -/
def isTerminal : CrawlJobStatus → Bool
  | .done => true
  | .error => true
  | .queued => false
  | .running => false

/-- The record `createJob` initially stores for a request (before the queue kick). -/
def newJobRecord (s : ServiceState) (req : BaseCrawlRequest) : CrawlJobRecord :=
  { jobId := s.nextId
    status := .queued
    progress := 0
    currentStep := some "Queued"
    createdAt := s.clock
    params := req }

/-- The mutation `runJob`'s synchronous head applies to a record when the worker
pulls its id (status `running`, `startedAt` stamped, step label set). -/
def startedRecord (job : CrawlJobRecord) (t : Nat) : CrawlJobRecord :=
  { job with
    status := .running
    startedAt := some t
    currentStep := some "Initializing crawler" }

/-- The order induced by the transition edges `queued → running → {done, error}`:
`statusLe a b` holds when a job whose status is `a` may later be observed with
status `b`. -/
def statusLe : CrawlJobStatus → CrawlJobStatus → Bool
  | .queued, _ => true
  | .running, .queued => false
  | .running, _ => true
  | .done, .done => true
  | .done, _ => false
  | .error, .error => true
  | .error, _ => false

/-- Event-kind discriminators over the four-variant event body. -/
def isProgressBody : EventBody → Bool
  | .progress _ _ => true
  | _ => false

def isDataBody : EventBody → Bool
  | .data _ _ _ => true
  | _ => false

def isErrorBody : EventBody → Bool
  | .error _ => true
  | _ => false

def isCompleteBody : EventBody → Bool
  | .complete _ _ => true
  | _ => false

/-- The event kinds the Extractor capability interface allows a handler to raise
(`may itself emit data/progress sub-events`). -/
def isSubBody (b : EventBody) : Bool :=
  isProgressBody b || isDataBody b

/-- Number of events of a given kind in a delivered event sequence. -/
def countBody (p : EventBody → Bool) (l : List StreamEvent) : Nat :=
  (l.filter fun e => p e.body).length

/-- Written from the spec's words (not from the code), for comparison with the
sequences the code produces: the claimed success order `progress event(s), then
zero or more data events, then exactly one complete event`. -/
def specSuccessShape (l : List StreamEvent) : Bool :=
  let progressPart := l.takeWhile fun e => isProgressBody e.body
  let rest := l.dropWhile fun e => isProgressBody e.body
  let rest₂ := rest.dropWhile fun e => isDataBody e.body
  !progressPart.isEmpty &&
    match rest₂ with
    | [e] => isCompleteBody e.body
    | _ => false

/-- A concrete request used by witnesses and counterexamples. -/
def req0 : BaseCrawlRequest :=
  { category := Category.hotels, site := "ivivu", url := "https://example.com/hotel" }

/-- The service state after one submission at process start. -/
def exampleState : ServiceState := (createJob initState req0).2

/-- The snapshot returned by that first submission. -/
def exampleSnap : CrawlJobRecord := (createJob initState req0).1

/-- A list-handler behaviour that succeeds with an empty array. -/
def emptyListBehavior : ListHandlerBehavior := { events := [], outcome := .ok [] }

/-- A list-handler table whose `ivivu` handler succeeds with an empty array. -/
def emptyListHandlers : String → Option ListHandlerBehavior :=
  fun site => if site = "ivivu" then some emptyListBehavior else none

/-- A handler-raised event that carries its own (truthy) correlation id. -/
def forgedEvent : RawStreamEvent :=
  { body := EventBody.data ["forged-item"] none none
    requestId := some "forged-id"
    timestamp := some 999 }

/-- A site-handler behaviour that raises `forgedEvent` and then succeeds. -/
def forgedBehavior : SiteHandlerBehavior :=
  { events := [forgedEvent], outcome := .ok (some "item-payload") }

/-- A site-handler table whose `ivivu` handler raises `forgedEvent` and succeeds. -/
def forgedHandlers : String → Option SiteHandlerBehavior :=
  fun site => if site = "ivivu" then some forgedBehavior else none

/-- A handler-raised data event with no correlation fields of its own. -/
def oneDataEvent : RawStreamEvent :=
  { body := EventBody.data ["item-payload"] none none
    requestId := none
    timestamp := none }

/-- A site-handler behaviour that raises one data event and then succeeds. -/
def oneDataBehavior : SiteHandlerBehavior :=
  { events := [oneDataEvent], outcome := .ok (some "item-payload") }

/-- A site-handler table whose `ivivu` handler raises one data event and succeeds. -/
def dataHandlers : String → Option SiteHandlerBehavior :=
  fun site => if site = "ivivu" then some oneDataBehavior else none

/-- An empty site-handler table. -/
def noHandlers : String → Option SiteHandlerBehavior := fun _ => none

/-- An empty list-handler table. -/
def noListHandlers : String → Option ListHandlerBehavior := fun _ => none

/-- A site-handler behaviour that succeeds quietly (no handler events). -/
def quietOkBehavior : SiteHandlerBehavior :=
  { events := [], outcome := .ok (some "item-payload") }

/-- A site-handler table whose `ivivu` handler succeeds quietly. -/
def okHandlers : String → Option SiteHandlerBehavior :=
  fun site => if site = "ivivu" then some quietOkBehavior else none

/-- A crawler table using `okHandlers` for every category. -/
def okCrawlers : Category → String → Option SiteHandlerBehavior :=
  fun _ => okHandlers

/-- A persistence-handler table whose handler always rejects. -/
def failingPersist : Category → Option (Except String Unit) :=
  fun _ => some (.error "admin API unreachable")

/-- The four fixed progress events (0/10/30/50) each orchestrator entry point
emits before the handler runs; `firstMsg` is the entry-point-specific first
message. -/
def preEvents (firstMsg : String) (runId : String) (t0 : Nat) : List StreamEvent :=
  [stampOwn runId t0 (.progress firstMsg (some 0)),
   stampOwn runId (t0 + 1) (.progress "Loading page..." (some 10)),
   stampOwn runId (t0 + 2) (.progress "Page loaded, extracting data..." (some 30)),
   stampOwn runId (t0 + 3) (.progress "Processing data..." (some 50))]

/-- State invariant of the job service, maintained by every transition:
fresh-counter discipline, queue/pending bookkeeping, the single-flight shape
(the one pending run is the one running job), and the result/done correspondence. -/
structure Inv (s : ServiceState) : Prop where
  jobsFresh : ∀ id, s.nextId ≤ id → s.jobs id = none
  resultsFresh : ∀ id, s.nextId ≤ id → s.results id = none
  jobIdField : ∀ id job, s.jobs id = some job → job.jobId = id
  queueRecords : ∀ id ∈ s.queue, ∃ job, s.jobs id = some job ∧ job.status = .queued
  queueNodup : s.queue.Nodup
  pendingRecord : ∀ id, s.pendingRun = some id →
    ∃ job, s.jobs id = some job ∧ job.status = .running
  runningPending : ∀ id job, s.jobs id = some job → job.status = .running →
    s.pendingRun = some id
  procPending : s.isProcessing = true ↔ s.pendingRun ≠ none
  idleQueue : s.isProcessing = false → s.queue = []
  resultsDone : ∀ id, (s.results id).isSome ↔
    ∃ job, s.jobs id = some job ∧ job.status = .done

/-- State of the worker loop at the top of a `while` iteration: the loop owns the
flag (`isProcessing = true`), no run is in flight, and no job is `running`.
`startLoop` turns any such state into an invariant-satisfying one. -/
structure PreInv (s : ServiceState) : Prop where
  jobsFresh : ∀ id, s.nextId ≤ id → s.jobs id = none
  resultsFresh : ∀ id, s.nextId ≤ id → s.results id = none
  jobIdField : ∀ id job, s.jobs id = some job → job.jobId = id
  queueRecords : ∀ id ∈ s.queue, ∃ job, s.jobs id = some job ∧ job.status = .queued
  queueNodup : s.queue.Nodup
  noRunning : ∀ id job, s.jobs id = some job → job.status ≠ .running
  pendingNone : s.pendingRun = none
  procTrue : s.isProcessing = true
  resultsDone : ∀ id, (s.results id).isSome ↔
    ∃ job, s.jobs id = some job ∧ job.status = .done

theorem mapSet_same {α : Type} (m : Nat → Option α) (id : Nat) (v : Option α) :
    mapSet m id v id = v := by
  simp [mapSet]

theorem mapSet_other {α : Type} (m : Nat → Option α) (id k : Nat) (v : Option α)
    (h : k ≠ id) : mapSet m id v k = m k := by
  simp [mapSet, h]

theorem mapSet_mapSet {α : Type} (m : Nat → Option α) (id : Nat) (v w : Option α) :
    mapSet (mapSet m id v) id w = mapSet m id w := by
  funext k
  by_cases h : k = id <;> simp [mapSet, h]

theorem inv_init : Inv initState := by
  constructor <;> simp [initState]

/-- When every id on the queue has a stored record (the invariant guarantees it),
`startLoop` either finds the queue empty and goes idle, or starts the head id. -/
theorem startLoop_spec (s : ServiceState) (q : List Nat)
    (hq : ∀ id ∈ q, (s.jobs id).isSome) :
    (q = [] ∧ startLoop s q =
      { s with queue := [], isProcessing := false, pendingRun := none }) ∨
    (∃ j job rest, q = j :: rest ∧ s.jobs j = some job ∧
      startLoop s q =
        { s with
          queue := rest
          jobs := mapSet s.jobs j (some (startedRecord job s.clock))
          pendingRun := some j
          clock := s.clock + 1 }) := by
  cases q with
  | nil => exact Or.inl ⟨rfl, rfl⟩
  | cons j rest =>
    have hj : (s.jobs j).isSome := hq j (by simp)
    obtain ⟨job, hjob⟩ := Option.isSome_iff_exists.mp hj
    refine Or.inr ⟨j, job, rest, rfl, hjob, ?_⟩
    simp [startLoop, hjob, startedRecord]

theorem inv_startLoop (s : ServiceState) (h : PreInv s) :
    Inv (startLoop s s.queue) := by
  have hq : ∀ id ∈ s.queue, (s.jobs id).isSome := by
    intro id hid
    obtain ⟨job, hj, _⟩ := h.queueRecords id hid
    simp [hj]
  rcases startLoop_spec s s.queue hq with ⟨hqnil, heq⟩ | ⟨j, job, rest, hqeq, hj, heq⟩
  · rw [heq]
    constructor
    · exact h.jobsFresh
    · exact h.resultsFresh
    · exact h.jobIdField
    · intro id hid; simp at hid
    · simp
    · intro id hid; simp at hid
    · intro id job hjob hrun; exact absurd hrun (h.noRunning id job hjob)
    · simp
    · intro _; rfl
    · exact h.resultsDone
  · have hjq : j ∈ s.queue := by rw [hqeq]; simp
    obtain ⟨jobq, hjq', hstq⟩ := h.queueRecords j hjq
    have hjoble : j < s.nextId := by
      by_contra hcon
      push_neg at hcon
      rw [h.jobsFresh j hcon] at hj
      exact Option.noConfusion hj
    have hnodup : (j :: rest).Nodup := hqeq ▸ h.queueNodup
    have hjrest : j ∉ rest := (List.nodup_cons.mp hnodup).1
    rw [heq]
    constructor <;> (try dsimp only)
    · intro id hle
      have hne : id ≠ j := by omega
      rw [mapSet_other _ _ _ _ hne]
      exact h.jobsFresh id hle
    · exact h.resultsFresh
    · intro id job' hjob'
      by_cases hid : id = j
      · subst hid
        rw [mapSet_same] at hjob'
        cases hjob'
        exact h.jobIdField id job hj
      · rw [mapSet_other _ _ _ _ hid] at hjob'
        exact h.jobIdField id job' hjob'
    · intro id hid
      have hidq : id ∈ s.queue := by rw [hqeq]; exact List.mem_cons_of_mem j hid
      have hne : id ≠ j := fun hc => hjrest (hc ▸ hid)
      obtain ⟨job', hj', hst'⟩ := h.queueRecords id hidq
      exact ⟨job', by rw [mapSet_other _ _ _ _ hne]; exact hj', hst'⟩
    · exact (List.nodup_cons.mp hnodup).2
    · intro id hid
      cases hid
      exact ⟨startedRecord job s.clock, by rw [mapSet_same], rfl⟩
    · intro id job' hjob' hrun
      by_cases hid : id = j
      · rw [hid]
      · rw [mapSet_other _ _ _ _ hid] at hjob'
        exact absurd hrun (h.noRunning id job' hjob')
    · simp [h.procTrue]
    · intro hfalse
      rw [h.procTrue] at hfalse
      exact Bool.noConfusion hfalse
    · intro id
      by_cases hid : id = j
      · subst hid
        rw [mapSet_same]
        constructor
        · intro hsome
          obtain ⟨job', hj', hdone⟩ := (h.resultsDone id).mp hsome
          rw [hj] at hj'
          cases hj'
          rw [hj] at hjq'
          cases hjq'
          rw [hstq] at hdone
          exact absurd hdone (by simp)
        · rintro ⟨job', hj', hdone⟩
          cases hj'
          rw [show (startedRecord job s.clock).status = .running from rfl] at hdone
          exact absurd hdone (by simp)
      · rw [mapSet_other _ _ _ _ hid]
        exact h.resultsDone id

/-- `createJob` while the worker loop is busy: the kick returns at the
`isProcessing` guard, so the call only stores the fresh `queued` record and
appends its id to the queue; the snapshot returned is that record. -/
theorem createJob_busy (s : ServiceState) (req : BaseCrawlRequest)
    (h : s.isProcessing = true) :
    createJob s req =
      (newJobRecord s req,
       { s with
         jobs := mapSet s.jobs s.nextId (some (newJobRecord s req))
         queue := s.queue ++ [s.nextId]
         nextId := s.nextId + 1
         clock := s.clock + 1 }) := by
  simp [createJob, h, newJobRecord, mapSet_same]

/-- `createJob` while the worker loop is idle: the synchronous part of the kicked
`processQueue` pulls the just-queued id and `runJob` marks it `running` before
`createJob` returns, so the returned snapshot already shows status `running`. -/
theorem createJob_idle (s : ServiceState) (req : BaseCrawlRequest) (hinv : Inv s)
    (h : s.isProcessing = false) :
    createJob s req =
      (startedRecord (newJobRecord s req) (s.clock + 1),
       { s with
         jobs := mapSet s.jobs s.nextId
           (some (startedRecord (newJobRecord s req) (s.clock + 1)))
         queue := []
         isProcessing := true
         pendingRun := some s.nextId
         nextId := s.nextId + 1
         clock := s.clock + 2 }) := by
  have hq : s.queue = [] := hinv.idleQueue h
  simp [createJob, h, hq, startLoop, mapSet_same, mapSet_mapSet, startedRecord,
    newJobRecord]

theorem inv_createJob (s : ServiceState) (req : BaseCrawlRequest) (hinv : Inv s) :
    Inv (createJob s req).2 := by
  by_cases h : s.isProcessing = true
  · rw [createJob_busy s req h]
    constructor <;> (try dsimp only)
    · intro id hle
      have hne : id ≠ s.nextId := by omega
      rw [mapSet_other _ _ _ _ hne]
      exact hinv.jobsFresh id (by omega)
    · intro id hle
      exact hinv.resultsFresh id (by omega)
    · intro id job hjob
      by_cases hid : id = s.nextId
      · subst hid
        rw [mapSet_same] at hjob
        cases hjob
        rfl
      · rw [mapSet_other _ _ _ _ hid] at hjob
        exact hinv.jobIdField id job hjob
    · intro id hid
      rcases List.mem_append.mp hid with hmem | hmem
      · obtain ⟨job, hj, hst⟩ := hinv.queueRecords id hmem
        have hne : id ≠ s.nextId := by
          intro hc
          rw [hc, hinv.jobsFresh s.nextId le_rfl] at hj
          exact Option.noConfusion hj
        exact ⟨job, by rw [mapSet_other _ _ _ _ hne]; exact hj, hst⟩
      · have hid' : id = s.nextId := by simpa using hmem
        subst hid'
        exact ⟨newJobRecord s req, by rw [mapSet_same], rfl⟩
    · rw [List.nodup_append]
      refine ⟨hinv.queueNodup, List.nodup_singleton _, ?_⟩
      intro a ha hb
      have hab : a = s.nextId := by simpa using hb
      obtain ⟨job, hj, _⟩ := hinv.queueRecords a ha
      rw [hab, hinv.jobsFresh s.nextId le_rfl] at hj
      exact Option.noConfusion hj
    · intro id hp
      obtain ⟨job, hj, hst⟩ := hinv.pendingRecord id hp
      have hne : id ≠ s.nextId := by
        intro hc
        rw [hc, hinv.jobsFresh s.nextId le_rfl] at hj
        exact Option.noConfusion hj
      exact ⟨job, by rw [mapSet_other _ _ _ _ hne]; exact hj, hst⟩
    · intro id job hjob hrun
      by_cases hid : id = s.nextId
      · subst hid
        rw [mapSet_same] at hjob
        cases hjob
        exact absurd hrun (by simp [newJobRecord])
      · rw [mapSet_other _ _ _ _ hid] at hjob
        exact hinv.runningPending id job hjob hrun
    · exact hinv.procPending
    · intro hfalse
      rw [h] at hfalse
      exact Bool.noConfusion hfalse
    · intro id
      by_cases hid : id = s.nextId
      · subst hid
        rw [mapSet_same, hinv.resultsFresh s.nextId le_rfl]
        simp [newJobRecord]
      · rw [mapSet_other _ _ _ _ hid]
        exact hinv.resultsDone id
  · have hf : s.isProcessing = false := by
      cases hb : s.isProcessing
      · rfl
      · exact absurd hb h
    have hpn : s.pendingRun = none := by
      by_contra hc
      have := hinv.procPending.mpr hc
      rw [hf] at this
      exact Bool.noConfusion this
    have hnorun : ∀ id job, s.jobs id = some job → job.status ≠ .running := by
      intro id job hjob hrun
      have := hinv.runningPending id job hjob hrun
      rw [hpn] at this
      exact Option.noConfusion this
    rw [createJob_idle s req hinv hf]
    constructor <;> (try dsimp only)
    · intro id hle
      have hne : id ≠ s.nextId := by omega
      rw [mapSet_other _ _ _ _ hne]
      exact hinv.jobsFresh id (by omega)
    · intro id hle
      exact hinv.resultsFresh id (by omega)
    · intro id job hjob
      by_cases hid : id = s.nextId
      · subst hid
        rw [mapSet_same] at hjob
        cases hjob
        rfl
      · rw [mapSet_other _ _ _ _ hid] at hjob
        exact hinv.jobIdField id job hjob
    · intro id hid
      exact absurd hid (List.not_mem_nil id)
    · exact List.nodup_nil
    · intro id hp
      cases hp
      exact ⟨startedRecord (newJobRecord s req) (s.clock + 1), by rw [mapSet_same], rfl⟩
    · intro id job hjob hrun
      by_cases hid : id = s.nextId
      · rw [hid]
      · rw [mapSet_other _ _ _ _ hid] at hjob
        exact absurd hrun (hnorun id job hjob)
    · simp
    · intro hfalse
      exact Bool.noConfusion hfalse
    · intro id
      by_cases hid : id = s.nextId
      · subst hid
        rw [mapSet_same, hinv.resultsFresh s.nextId le_rfl]
        simp [startedRecord, newJobRecord]
      · rw [mapSet_other _ _ _ _ hid]
        exact hinv.resultsDone id

/-- Replacing the record of the in-flight job by one with the same status and id
(what `handleStreamEvent` does) preserves the invariant. -/
theorem inv_replacePending (s : ServiceState) (j : Nat) (job job' : CrawlJobRecord)
    (hinv : Inv s) (hp : s.pendingRun = some j) (hj : s.jobs j = some job)
    (hstat : job'.status = job.status) (hid : job'.jobId = job.jobId) :
    Inv { s with jobs := mapSet s.jobs j (some job') } := by
  have hrun : job.status = .running := by
    obtain ⟨job₀, hj₀, hr₀⟩ := hinv.pendingRecord j hp
    rw [hj] at hj₀
    cases hj₀
    exact hr₀
  have hjlt : j < s.nextId := by
    by_contra hcon
    push_neg at hcon
    rw [hinv.jobsFresh j hcon] at hj
    exact Option.noConfusion hj
  constructor <;> (try dsimp only)
  · intro id hle
    have hne : id ≠ j := by omega
    rw [mapSet_other _ _ _ _ hne]
    exact hinv.jobsFresh id hle
  · exact hinv.resultsFresh
  · intro id jobx hjobx
    by_cases hidx : id = j
    · subst hidx
      rw [mapSet_same] at hjobx
      cases hjobx
      rw [hid]
      exact hinv.jobIdField id job hj
    · rw [mapSet_other _ _ _ _ hidx] at hjobx
      exact hinv.jobIdField id jobx hjobx
  · intro id hmem
    obtain ⟨jobx, hjx, hstx⟩ := hinv.queueRecords id hmem
    have hne : id ≠ j := by
      intro hc
      rw [hc, hj] at hjx
      cases hjx
      rw [hrun] at hstx
      exact CrawlJobStatus.noConfusion hstx
    exact ⟨jobx, by rw [mapSet_other _ _ _ _ hne]; exact hjx, hstx⟩
  · exact hinv.queueNodup
  · intro id hpid
    rw [hp] at hpid
    cases hpid
    exact ⟨job', by rw [mapSet_same], by rw [hstat, hrun]⟩
  · intro id jobx hjobx hrunx
    by_cases hidx : id = j
    · rw [hidx, hp]
    · rw [mapSet_other _ _ _ _ hidx] at hjobx
      exact hinv.runningPending id jobx hjobx hrunx
  · exact hinv.procPending
  · exact hinv.idleQueue
  · intro id
    by_cases hidx : id = j
    · subst hidx
      rw [mapSet_same]
      constructor
      · intro hsome
        obtain ⟨jobx, hjx, hdone⟩ := (hinv.resultsDone id).mp hsome
        rw [hj] at hjx
        cases hjx
        rw [hrun] at hdone
        exact absurd hdone (by simp)
      · rintro ⟨jobx, hjx, hdone⟩
        cases hjx
        rw [hstat, hrun] at hdone
        exact absurd hdone (by simp)
    · rw [mapSet_other _ _ _ _ hidx]
      exact hinv.resultsDone id

theorem inv_deliver (s : ServiceState) (e : StreamEvent) (hinv : Inv s) :
    Inv (deliverEvent s e) := by
  unfold deliverEvent
  cases hp : s.pendingRun with
  | none => exact hinv
  | some j =>
    obtain ⟨job, hj, _⟩ := hinv.pendingRecord j hp
    unfold handleStreamEvent
    dsimp only
    rw [hj]
    obtain ⟨body, rid, ts⟩ := e
    cases body with
    | progress msg p =>
        dsimp only
        cases p with
        | none =>
            by_cases hm : msg = ""
            · simp only [hm, if_pos rfl]
              exact inv_replacePending s j job job hinv hp hj rfl rfl
            · simp only [if_neg hm]
              exact inv_replacePending s j job _ hinv hp hj rfl rfl
        | some n =>
            by_cases hm : msg = ""
            · simp only [hm, if_pos rfl]
              exact inv_replacePending s j job _ hinv hp hj rfl rfl
            · simp only [if_neg hm]
              exact inv_replacePending s j job _ hinv hp hj rfl rfl
    | data payload idx tot => exact hinv
    | error err => exact inv_replacePending s j job _ hinv hp hj rfl rfl
    | complete items dur => exact inv_replacePending s j job _ hinv hp hj rfl rfl

theorem inv_settle (s : ServiceState) (o : Except String CrawlResultData)
    (hinv : Inv s) : Inv (settlePending s o) := by
  unfold settlePending
  cases hp : s.pendingRun with
  | none => exact hinv
  | some j =>
    obtain ⟨job, hj, hrun⟩ := hinv.pendingRecord j hp
    have hjlt : j < s.nextId := by
      by_contra hcon
      push_neg at hcon
      rw [hinv.jobsFresh j hcon] at hj
      exact Option.noConfusion hj
    have hproc : s.isProcessing = true := hinv.procPending.mpr (by rw [hp]; simp)
    have hqj : j ∉ s.queue := by
      intro hmem
      obtain ⟨jobx, hjx, hstx⟩ := hinv.queueRecords j hmem
      rw [hj] at hjx
      cases hjx
      rw [hrun] at hstx
      exact CrawlJobStatus.noConfusion hstx
    dsimp only
    rw [hj]
    cases o with
    | ok data =>
        dsimp only
        apply inv_startLoop
        constructor <;> (try dsimp only)
        · intro id hle
          have hne : id ≠ j := by omega
          rw [mapSet_other _ _ _ _ hne]
          exact hinv.jobsFresh id hle
        · intro id hle
          have hne : id ≠ j := by omega
          rw [mapSet_other _ _ _ _ hne]
          exact hinv.resultsFresh id hle
        · intro id jobx hjobx
          by_cases hidx : id = j
          · subst hidx
            rw [mapSet_same] at hjobx
            cases hjobx
            exact hinv.jobIdField id job hj
          · rw [mapSet_other _ _ _ _ hidx] at hjobx
            exact hinv.jobIdField id jobx hjobx
        · intro id hmem
          obtain ⟨jobx, hjx, hstx⟩ := hinv.queueRecords id hmem
          have hne : id ≠ j := fun hc => hqj (hc ▸ hmem)
          exact ⟨jobx, by rw [mapSet_other _ _ _ _ hne]; exact hjx, hstx⟩
        · exact hinv.queueNodup
        · intro id jobx hjobx hrunx
          by_cases hidx : id = j
          · subst hidx
            rw [mapSet_same] at hjobx
            cases hjobx
            exact absurd hrunx (by simp)
          · rw [mapSet_other _ _ _ _ hidx] at hjobx
            have := hinv.runningPending id jobx hjobx hrunx
            rw [hp] at this
            cases this
            exact absurd rfl hidx
        · exact hproc
        · intro id
          by_cases hidx : id = j
          · subst hidx
            rw [mapSet_same, mapSet_same]
            simp
          · rw [mapSet_other _ _ _ _ hidx, mapSet_other _ _ _ _ hidx]
            constructor
            · intro hsome
              obtain ⟨jobx, hjx, hdone⟩ := (hinv.resultsDone id).mp hsome
              exact ⟨jobx, hjx, hdone⟩
            · rintro ⟨jobx, hjx, hdone⟩
              exact (hinv.resultsDone id).mpr ⟨jobx, hjx, hdone⟩
    | error msg =>
        dsimp only
        apply inv_startLoop
        constructor <;> (try dsimp only)
        · intro id hle
          have hne : id ≠ j := by omega
          rw [mapSet_other _ _ _ _ hne]
          exact hinv.jobsFresh id hle
        · exact hinv.resultsFresh
        · intro id jobx hjobx
          by_cases hidx : id = j
          · subst hidx
            rw [mapSet_same] at hjobx
            cases hjobx
            exact hinv.jobIdField id job hj
          · rw [mapSet_other _ _ _ _ hidx] at hjobx
            exact hinv.jobIdField id jobx hjobx
        · intro id hmem
          obtain ⟨jobx, hjx, hstx⟩ := hinv.queueRecords id hmem
          have hne : id ≠ j := fun hc => hqj (hc ▸ hmem)
          exact ⟨jobx, by rw [mapSet_other _ _ _ _ hne]; exact hjx, hstx⟩
        · exact hinv.queueNodup
        · intro id jobx hjobx hrunx
          by_cases hidx : id = j
          · subst hidx
            rw [mapSet_same] at hjobx
            cases hjobx
            exact absurd hrunx (by simp)
          · rw [mapSet_other _ _ _ _ hidx] at hjobx
            have := hinv.runningPending id jobx hjobx hrunx
            rw [hp] at this
            cases this
            exact absurd rfl hidx
        · exact hproc
        · intro id
          by_cases hidx : id = j
          · subst hidx
            rw [mapSet_same]
            constructor
            · intro hsome
              obtain ⟨jobx, hjx, hdone⟩ := (hinv.resultsDone id).mp hsome
              rw [hj] at hjx
              cases hjx
              rw [hrun] at hdone
              exact absurd hdone (by simp)
            · rintro ⟨jobx, hjx, hdone⟩
              cases hjx
              exact absurd hdone (by simp)
          · rw [mapSet_other _ _ _ _ hidx]
            exact hinv.resultsDone id

/-- Every reachable state of the job service satisfies the invariant. -/
theorem reachable_inv (s : ServiceState) (h : Reachable s) : Inv s := by
  induction h with
  | refl => exact inv_init
  | tail _ hstep ih =>
      cases hstep with
      | submit req => exact inv_createJob _ req ih
      | deliver e => exact inv_deliver _ e ih
      | settle o => exact inv_settle _ o ih

theorem statusLe_refl (a : CrawlJobStatus) : statusLe a a = true := by
  cases a <;> rfl

theorem statusLe_trans (a b c : CrawlJobStatus) (h₁ : statusLe a b = true)
    (h₂ : statusLe b c = true) : statusLe a c = true := by
  revert h₁ h₂
  cases a <;> cases b <;> cases c <;> decide

theorem inv_step (s s' : ServiceState) (hinv : Inv s) (h : Step s s') : Inv s' := by
  cases h with
  | submit req => exact inv_createJob s req hinv
  | deliver e => exact inv_deliver s e hinv
  | settle o => exact inv_settle s o hinv

theorem star_inv (s s' : ServiceState) (hinv : Inv s)
    (h : Relation.ReflTransGen Step s s') : Inv s' := by
  induction h with
  | refl => exact hinv
  | tail _ hbc ih => exact inv_step _ _ ih hbc

/-- `handleStreamEvent` leaves every other job's record untouched. -/
theorem handleStreamEvent_other (s : ServiceState) (j id : Nat) (e : StreamEvent)
    (hne : id ≠ j) : (handleStreamEvent s j e).jobs id = s.jobs id := by
  unfold handleStreamEvent
  cases hjs : s.jobs j with
  | none => rfl
  | some job =>
      obtain ⟨body, rid, ts⟩ := e
      cases body <;> simp [mapSet, hne]

/-- `handleStreamEvent` never changes the status or id of the folded job's
record (it only touches `progress`, `currentStep`, `errorMessage`). -/
theorem handleStreamEvent_self (s : ServiceState) (j : Nat) (e : StreamEvent)
    (job : CrawlJobRecord) (hjs : s.jobs j = some job) :
    ∃ job', (handleStreamEvent s j e).jobs j = some job' ∧
      job'.status = job.status ∧ job'.jobId = job.jobId := by
  unfold handleStreamEvent
  rw [hjs]
  obtain ⟨body, rid, ts⟩ := e
  cases body with
  | progress msg p =>
      dsimp only
      cases p with
      | none =>
          by_cases hm : msg = "" <;> simp [hm, mapSet_same]
      | some n =>
          by_cases hm : msg = "" <;> simp [hm, mapSet_same]
  | data payload idx tot => exact ⟨job, hjs, rfl, rfl⟩
  | error err =>
      dsimp only
      refine ⟨{ job with currentStep := some err, errorMessage := some err }, ?_,
        rfl, rfl⟩
      rw [mapSet_same]
  | complete items dur =>
      dsimp only
      refine ⟨{ job with progress := 100, currentStep := some "Completed" }, ?_,
        rfl, rfl⟩
      rw [mapSet_same]

/-- Full characterization of one settlement under the invariant: the in-flight
job `j` was `running`; on fulfilment it is marked `done` (progress 100, step
`Completed`, `finishedAt` stamped) and its result stored, on rejection it is
marked `error` with the captured message; every other job's result is untouched
and its record is either untouched or — for the next id the loop pulls —
advanced `queued → running`; the queue loses exactly its head (if any). -/
theorem settle_facts (s : ServiceState) (o : Except String CrawlResultData)
    (hinv : Inv s) (j : Nat) (hp : s.pendingRun = some j) :
    ∃ job, s.jobs j = some job ∧ job.status = .running ∧
      ((∃ d, o = .ok d ∧
          (settlePending s o).jobs j = some
            { job with
              status := .done
              progress := 100
              currentStep := some "Completed"
              finishedAt := some s.clock } ∧
          (settlePending s o).results j = some d) ∨
       (∃ m, o = .error m ∧
          (settlePending s o).jobs j = some
            { job with
              status := .error
              errorMessage := some m
              finishedAt := some s.clock
              currentStep := some "Failed" } ∧
          (settlePending s o).results j = s.results j)) ∧
      (∀ k, k ≠ j → (settlePending s o).results k = s.results k) ∧
      (∀ k, k ≠ j →
        ((settlePending s o).jobs k = s.jobs k ∨
         ∃ jobk, s.jobs k = some jobk ∧ jobk.status = .queued ∧ k ∈ s.queue ∧
           (settlePending s o).jobs k = some (startedRecord jobk (s.clock + 1)))) ∧
      ((s.queue = [] ∧ (settlePending s o).queue = [] ∧
          (settlePending s o).pendingRun = none) ∨
       (∃ k₀ rest, s.queue = k₀ :: rest ∧ (settlePending s o).queue = rest ∧
          (settlePending s o).pendingRun = some k₀)) := by
  obtain ⟨job, hj, hrun⟩ := hinv.pendingRecord j hp
  have hqj : j ∉ s.queue := by
    intro hmem
    obtain ⟨jobx, hjx, hstx⟩ := hinv.queueRecords j hmem
    rw [hj] at hjx
    cases hjx
    rw [hrun] at hstx
    exact CrawlJobStatus.noConfusion hstx
  refine ⟨job, hj, hrun, ?_⟩
  unfold settlePending
  rw [hp]
  dsimp only
  rw [hj]
  cases o with
  | ok d =>
      dsimp only
      have hq : ∀ id ∈ s.queue,
          ((mapSet s.jobs j (some
            { job with
              status := .done
              progress := 100
              currentStep := some "Completed"
              finishedAt := some s.clock })) id).isSome := by
        intro id hid
        obtain ⟨jobx, hjx, _⟩ := hinv.queueRecords id hid
        have hne : id ≠ j := fun hc => hqj (hc ▸ hid)
        rw [mapSet_other _ _ _ _ hne, hjx]
        rfl
      rcases startLoop_spec
          { s with
            results := mapSet s.results j (some d)
            jobs := mapSet s.jobs j (some
              { job with
                status := .done
                progress := 100
                currentStep := some "Completed"
                finishedAt := some s.clock })
            clock := s.clock + 1
            pendingRun := none }
          s.queue hq with ⟨hqnil, heq⟩ | ⟨k₀, jobk₀, rest, hqeq, hjk, heq⟩
      · rw [heq]
        dsimp only
        refine ⟨Or.inl ⟨d, rfl, by rw [mapSet_same], by rw [mapSet_same]⟩, ?_, ?_, ?_⟩
        · intro k hk
          exact mapSet_other _ _ _ _ hk
        · intro k hk
          exact Or.inl (mapSet_other _ _ _ _ hk)
        · exact Or.inl ⟨hqnil, rfl, rfl⟩
      · have hk₀mem : k₀ ∈ s.queue := by rw [hqeq]; simp
        have hk₀ne : k₀ ≠ j := fun hc => hqj (hc ▸ hk₀mem)
        obtain ⟨jobq, hjq, hstq⟩ := hinv.queueRecords k₀ hk₀mem
        have hjk' : jobk₀ = jobq := by
          dsimp only at hjk
          rw [mapSet_other _ _ _ _ hk₀ne] at hjk
          rw [hjq] at hjk
          exact (Option.some.inj hjk).symm
        rw [heq]
        dsimp only
        refine ⟨Or.inl ⟨d, rfl, ?_, by rw [mapSet_same]⟩, ?_, ?_, ?_⟩
        · rw [mapSet_other _ _ _ _ (Ne.symm hk₀ne), mapSet_same]
        · intro k hk
          exact mapSet_other _ _ _ _ hk
        · intro k hk
          by_cases hkk : k = k₀
          · subst hkk
            refine Or.inr ⟨jobq, hjq, hstq, hk₀mem, ?_⟩
            rw [mapSet_same, hjk']
          · exact Or.inl (by
              rw [mapSet_other _ _ _ _ hkk, mapSet_other _ _ _ _ hk])
        · exact Or.inr ⟨k₀, rest, hqeq, rfl, rfl⟩
  | error m =>
      dsimp only
      have hq : ∀ id ∈ s.queue,
          ((mapSet s.jobs j (some
            { job with
              status := .error
              errorMessage := some m
              finishedAt := some s.clock
              currentStep := some "Failed" })) id).isSome := by
        intro id hid
        obtain ⟨jobx, hjx, _⟩ := hinv.queueRecords id hid
        have hne : id ≠ j := fun hc => hqj (hc ▸ hid)
        rw [mapSet_other _ _ _ _ hne, hjx]
        rfl
      rcases startLoop_spec
          { s with
            jobs := mapSet s.jobs j (some
              { job with
                status := .error
                errorMessage := some m
                finishedAt := some s.clock
                currentStep := some "Failed" })
            clock := s.clock + 1
            pendingRun := none }
          s.queue hq with ⟨hqnil, heq⟩ | ⟨k₀, jobk₀, rest, hqeq, hjk, heq⟩
      · rw [heq]
        dsimp only
        refine ⟨Or.inr ⟨m, rfl, by rw [mapSet_same], rfl⟩, ?_, ?_, ?_⟩
        · intro k hk
          rfl
        · intro k hk
          exact Or.inl (mapSet_other _ _ _ _ hk)
        · exact Or.inl ⟨hqnil, rfl, rfl⟩
      · have hk₀mem : k₀ ∈ s.queue := by rw [hqeq]; simp
        have hk₀ne : k₀ ≠ j := fun hc => hqj (hc ▸ hk₀mem)
        obtain ⟨jobq, hjq, hstq⟩ := hinv.queueRecords k₀ hk₀mem
        have hjk' : jobk₀ = jobq := by
          dsimp only at hjk
          rw [mapSet_other _ _ _ _ hk₀ne] at hjk
          rw [hjq] at hjk
          exact (Option.some.inj hjk).symm
        rw [heq]
        dsimp only
        refine ⟨Or.inr ⟨m, rfl, ?_, rfl⟩, ?_, ?_, ?_⟩
        · rw [mapSet_other _ _ _ _ (Ne.symm hk₀ne), mapSet_same]
        · intro k hk
          rfl
        · intro k hk
          by_cases hkk : k = k₀
          · subst hkk
            refine Or.inr ⟨jobq, hjq, hstq, hk₀mem, ?_⟩
            rw [mapSet_same, hjk']
          · exact Or.inl (by
              rw [mapSet_other _ _ _ _ hkk, mapSet_other _ _ _ _ hk])
        · exact Or.inr ⟨k₀, rest, hqeq, rfl, rfl⟩

/-- One transition moves each stored record's status only along the allowed
edges, and never touches a record that has reached `done` or `error`. -/
theorem step_status (s s' : ServiceState) (hinv : Inv s) (hstep : Step s s')
    (id : Nat) (job : CrawlJobRecord) (hj : s.jobs id = some job) :
    ∃ job', s'.jobs id = some job' ∧ statusLe job.status job'.status = true ∧
      (isTerminal job.status = true → job' = job) := by
  cases hstep with
  | submit req =>
      have hne : id ≠ s.nextId := by
        intro hc
        rw [hc, hinv.jobsFresh s.nextId le_rfl] at hj
        exact Option.noConfusion hj
      by_cases h : s.isProcessing = true
      · rw [createJob_busy s req h]
        dsimp only
        exact ⟨job, by rw [mapSet_other _ _ _ _ hne]; exact hj, statusLe_refl _,
          fun _ => rfl⟩
      · have hf : s.isProcessing = false := by
          cases hb : s.isProcessing
          · rfl
          · exact absurd hb h
        rw [createJob_idle s req hinv hf]
        dsimp only
        exact ⟨job, by rw [mapSet_other _ _ _ _ hne]; exact hj, statusLe_refl _,
          fun _ => rfl⟩
  | deliver e =>
      unfold deliverEvent
      cases hp : s.pendingRun with
      | none => exact ⟨job, hj, statusLe_refl _, fun _ => rfl⟩
      | some j =>
          dsimp only
          by_cases hid : id = j
          · subst hid
            obtain ⟨job₀, hj₀, hrun₀⟩ := hinv.pendingRecord id hp
            rw [hj] at hj₀
            cases hj₀
            obtain ⟨job', hj', hst', _⟩ := handleStreamEvent_self s id e job hj
            refine ⟨job', hj', by rw [hst']; exact statusLe_refl _, ?_⟩
            intro hterm
            rw [hrun₀] at hterm
            exact Bool.noConfusion hterm
          · rw [handleStreamEvent_other s j id e hid]
            exact ⟨job, hj, statusLe_refl _, fun _ => rfl⟩
  | settle o =>
      cases hp : s.pendingRun with
      | none =>
          unfold settlePending
          rw [hp]
          exact ⟨job, hj, statusLe_refl _, fun _ => rfl⟩
      | some j =>
          obtain ⟨job₀, hj₀, hrun₀, hsettled, hres, hothers, hqueue⟩ :=
            settle_facts s o hinv j hp
          by_cases hid : id = j
          · subst hid
            rw [hj] at hj₀
            cases hj₀
            rcases hsettled with ⟨d, ho, hjs, _⟩ | ⟨m, ho, hjs, _⟩
            · refine ⟨_, hjs, by rw [hrun₀]; rfl, ?_⟩
              intro hterm
              rw [hrun₀] at hterm
              exact Bool.noConfusion hterm
            · refine ⟨_, hjs, by rw [hrun₀]; rfl, ?_⟩
              intro hterm
              rw [hrun₀] at hterm
              exact Bool.noConfusion hterm
          · rcases hothers id hid with hsame | ⟨jobk, hjk, hstk, _, hjs⟩
            · exact ⟨job, by rw [hsame]; exact hj, statusLe_refl _, fun _ => rfl⟩
            · rw [hj] at hjk
              cases hjk
              refine ⟨startedRecord job (s.clock + 1), hjs, by rw [hstk]; rfl, ?_⟩
              intro hterm
              rw [hstk] at hterm
              exact Bool.noConfusion hterm

/-- Multi-step version of `step_status`: along any sequence of transitions a
record's status is monotone in the `statusLe` order and a terminal record is
frozen. -/
theorem star_status (s s' : ServiceState) (hinv : Inv s)
    (hstar : Relation.ReflTransGen Step s s') (id : Nat) (job : CrawlJobRecord)
    (hj : s.jobs id = some job) :
    ∃ job', s'.jobs id = some job' ∧ statusLe job.status job'.status = true ∧
      (isTerminal job.status = true → job' = job) := by
  induction hstar with
  | refl => exact ⟨job, hj, statusLe_refl _, fun _ => rfl⟩
  | tail hab hbc ih =>
      obtain ⟨job₁, hj₁, hle₁, hfr₁⟩ := ih
      obtain ⟨job₂, hj₂, hle₂, hfr₂⟩ :=
        step_status _ _ (star_inv _ _ hinv hab) hbc id job₁ hj₁
      refine ⟨job₂, hj₂, statusLe_trans _ _ _ hle₁ hle₂, ?_⟩
      intro hterm
      have h₁ : job₁ = job := hfr₁ hterm
      have h₂ : job₂ = job₁ := hfr₂ (by rw [h₁]; exact hterm)
      rw [h₂, h₁]

/-- Every drain run is a sequence of settle transitions. -/
theorem drain_star (oracle : Nat → Except String CrawlResultData) (fuel : Nat)
    (s : ServiceState) :
    Relation.ReflTransGen Step s (drain oracle fuel s) := by
  induction fuel generalizing s with
  | zero => exact Relation.ReflTransGen.refl
  | succ n ih =>
      unfold drain
      cases hp : s.pendingRun with
      | none => exact Relation.ReflTransGen.refl
      | some j =>
          exact Relation.ReflTransGen.head (Step.settle s (oracle j)) (ih _)

/-- Draining with enough fuel brings every id that is queued or in flight to a
terminal status. -/
theorem drain_terminal (oracle : Nat → Except String CrawlResultData) (fuel : Nat)
    (s : ServiceState) (hinv : Inv s)
    (hfuel : s.queue.length + (if s.pendingRun.isSome then 1 else 0) ≤ fuel) :
    ∀ k, (k ∈ s.queue ∨ s.pendingRun = some k) →
      ∃ jobk, (drain oracle fuel s).jobs k = some jobk ∧
        isTerminal jobk.status = true := by
  induction fuel generalizing s with
  | zero =>
      intro k hk
      rcases hk with hk | hk
      · have hq : s.queue.length = 0 := by omega
        rw [List.length_eq_zero.mp hq] at hk
        exact absurd hk (List.not_mem_nil k)
      · rw [hk] at hfuel
        simp at hfuel
  | succ n ih =>
      intro k hk
      unfold drain
      cases hp : s.pendingRun with
      | none =>
          have hproc : s.isProcessing = false := by
            cases hb : s.isProcessing
            · rfl
            · have := hinv.procPending.mp hb
              rw [hp] at this
              exact absurd rfl this
          have hq : s.queue = [] := hinv.idleQueue hproc
          rcases hk with hk | hk
          · rw [hq] at hk
            exact absurd hk (List.not_mem_nil k)
          · rw [hp] at hk
            exact Option.noConfusion hk
      | some j =>
          have hinv₂ := inv_settle s (oracle j) hinv
          obtain ⟨job, hj, hrun, hsettled, hres, hothers, hqueue⟩ :=
            settle_facts s (oracle j) hinv j hp
          rw [hp] at hfuel
          simp only [Option.isSome_some, if_pos] at hfuel
          by_cases hkj : k = j
          · subst hkj
            have hfin : ∃ fin, (settlePending s (oracle k)).jobs k = some fin ∧
                isTerminal fin.status = true := by
              rcases hsettled with ⟨d, _, hjs, _⟩ | ⟨m, _, hjs, _⟩
              · exact ⟨_, hjs, rfl⟩
              · exact ⟨_, hjs, rfl⟩
            obtain ⟨fin, hfin₁, hfin₂⟩ := hfin
            obtain ⟨job', hj', _, hfr⟩ :=
              star_status _ _ hinv₂ (drain_star oracle n _) k fin hfin₁
            refine ⟨fin, ?_, hfin₂⟩
            rw [hj', hfr hfin₂]
          · rcases hk with hk | hk
            · rcases hqueue with ⟨hq0, hq1, hq2⟩ | ⟨k₀, rest, hq0, hq1, hq2⟩
              · rw [hq0] at hk
                exact absurd hk (List.not_mem_nil k)
              · have hfuel₂ :
                    (settlePending s (oracle j)).queue.length +
                      (if (settlePending s (oracle j)).pendingRun.isSome then 1
                       else 0) ≤ n := by
                  rw [hq1, hq2]
                  rw [hq0] at hfuel
                  simp at hfuel ⊢
                  omega
                rw [hq0] at hk
                rcases List.mem_cons.mp hk with hkk | hkr
                · exact ih _ hinv₂ hfuel₂ k (Or.inr (by rw [hq2, hkk]))
                · exact ih _ hinv₂ hfuel₂ k (Or.inl (by rw [hq1]; exact hkr))
            · rw [hp] at hk
              exact absurd (Option.some.inj hk).symm hkj

theorem countBody_append (p : EventBody → Bool) (l₁ l₂ : List StreamEvent) :
    countBody p (l₁ ++ l₂) = countBody p l₁ + countBody p l₂ := by
  simp [countBody, List.filter_append]

theorem countBody_stampWrappedList (p : EventBody → Bool) (runId : String)
    (t : Nat) (es : List RawStreamEvent) :
    countBody p (stampWrappedList runId t es) =
      (es.filter fun e => p e.body).length := by
  induction es generalizing t with
  | nil => rfl
  | cons a as ih =>
      have hb : (fun e => p e.body) (stampWrapped runId t a) = p a.body := rfl
      simp only [stampWrappedList, countBody, List.filter_cons, hb] at ih ⊢
      cases p a.body <;> simp [ih]

theorem sub_no_error (b : EventBody) (h : isSubBody b = true) :
    isErrorBody b = false := by
  cases b <;> simp_all [isSubBody, isProgressBody, isDataBody, isErrorBody]

theorem sub_no_complete (b : EventBody) (h : isSubBody b = true) :
    isCompleteBody b = false := by
  cases b <;> simp_all [isSubBody, isProgressBody, isDataBody, isCompleteBody]

/-- If a handler raises only data/progress events (the extractor interface),
its stamped event list contains no event of a kind that those exclude. -/
theorem countBody_stamped_zero (p : EventBody → Bool)
    (hp : ∀ b, isSubBody b = true → p b = false) (runId : String) (t : Nat)
    (es : List RawStreamEvent) (hsub : ∀ raw ∈ es, isSubBody raw.body = true) :
    countBody p (stampWrappedList runId t es) = 0 := by
  rw [countBody_stampWrappedList]
  simp only [List.length_eq_zero]
  rw [List.filter_eq_nil_iff]
  intro raw hraw
  rw [hp raw.body (hsub raw hraw)]
  simp

theorem stampWrappedList_mem (runId : String) (t : Nat)
    (es : List RawStreamEvent) (e : StreamEvent)
    (he : e ∈ stampWrappedList runId t es) :
    ∃ raw t', raw ∈ es ∧ e = stampWrapped runId t' raw := by
  induction es generalizing t with
  | nil => simp [stampWrappedList] at he
  | cons a as ih =>
      simp only [stampWrappedList, List.mem_cons] at he
      rcases he with he | he
      · exact ⟨a, t, by simp, he⟩
      · obtain ⟨raw, t', hraw, heq⟩ := ih (t + 1) he
        exact ⟨raw, t', List.mem_cons_of_mem a hraw, heq⟩

theorem crawl_eq_unsupported (siteHandlers : String → Option SiteHandlerBehavior)
    (req : BaseCrawlRequest) (runId : String) (t0 : Nat)
    (nav : Except String Unit) (hs : siteHandlers req.site = none) :
    BaseCrawler.crawl siteHandlers req runId t0 nav =
      { contextsAllocated := 0
        events := []
        outcome := .error (unsupportedSiteMsg req) } := by
  unfold BaseCrawler.crawl
  rw [hs]

theorem crawl_eq_nav (siteHandlers : String → Option SiteHandlerBehavior)
    (req : BaseCrawlRequest) (runId : String) (t0 : Nat) (m : String)
    (hb : SiteHandlerBehavior) (hs : siteHandlers req.site = some hb) :
    BaseCrawler.crawl siteHandlers req runId t0 (.error m) =
      { contextsAllocated := 1
        events := [stampOwn runId t0
            (.progress ("Starting crawl for " ++ req.site ++ "...") (some 0)),
          stampOwn runId (t0 + 1) (.progress "Loading page..." (some 10)),
          stampOwn runId (t0 + 2) (.error m)]
        outcome := .error m } := by
  unfold BaseCrawler.crawl
  rw [hs]

theorem crawl_eq_throw (siteHandlers : String → Option SiteHandlerBehavior)
    (req : BaseCrawlRequest) (runId : String) (t0 : Nat) (m : String)
    (hb : SiteHandlerBehavior) (hs : siteHandlers req.site = some hb)
    (ho : hb.outcome = .error m) :
    BaseCrawler.crawl siteHandlers req runId t0 (.ok ()) =
      { contextsAllocated := 1
        events := preEvents ("Starting crawl for " ++ req.site ++ "...") runId t0 ++
          stampWrappedList runId (t0 + 4) hb.events ++
          [stampOwn runId (t0 + 4 + hb.events.length) (.error m)]
        outcome := .error m } := by
  unfold BaseCrawler.crawl
  rw [hs]
  dsimp only
  rw [ho]
  rfl

theorem crawl_eq_noResult (siteHandlers : String → Option SiteHandlerBehavior)
    (req : BaseCrawlRequest) (runId : String) (t0 : Nat)
    (hb : SiteHandlerBehavior) (hs : siteHandlers req.site = some hb)
    (ho : hb.outcome = .ok none) :
    BaseCrawler.crawl siteHandlers req runId t0 (.ok ()) =
      { contextsAllocated := 1
        events := preEvents ("Starting crawl for " ++ req.site ++ "...") runId t0 ++
          stampWrappedList runId (t0 + 4) hb.events ++
          [stampOwn runId (t0 + 4 + hb.events.length)
             (.progress "Crawl completed" (some 100)),
           stampOwn runId (t0 + 4 + hb.events.length + 1)
             (.error (failedCrawlMsg req))]
        outcome := .error (failedCrawlMsg req) } := by
  unfold BaseCrawler.crawl
  rw [hs]
  dsimp only
  rw [ho]
  rfl

theorem crawl_eq_success (siteHandlers : String → Option SiteHandlerBehavior)
    (req : BaseCrawlRequest) (runId : String) (t0 : Nat)
    (hb : SiteHandlerBehavior) (item : CrawlResultData)
    (hs : siteHandlers req.site = some hb) (ho : hb.outcome = .ok (some item)) :
    BaseCrawler.crawl siteHandlers req runId t0 (.ok ()) =
      { contextsAllocated := 1
        events := preEvents ("Starting crawl for " ++ req.site ++ "...") runId t0 ++
          stampWrappedList runId (t0 + 4) hb.events ++
          [stampOwn runId (t0 + 4 + hb.events.length)
             (.progress "Crawl completed" (some 100)),
           stampOwn runId (t0 + 4 + hb.events.length + 1)
             (.complete (some 1) (some (t0 + 4 + hb.events.length + 1 - t0)))]
        outcome := .ok item } := by
  unfold BaseCrawler.crawl
  rw [hs]
  dsimp only
  rw [ho]
  rfl

theorem crawlList_eq_unsupported (listHandlers : String → Option ListHandlerBehavior)
    (req : BaseCrawlRequest) (runId : String) (t0 : Nat)
    (nav : Except String Unit) (hl : listHandlers req.site = none) :
    BaseCrawler.crawlList listHandlers req runId t0 nav =
      { contextsAllocated := 0
        events := []
        outcome := .error (unsupportedListMsg req) } := by
  unfold BaseCrawler.crawlList
  rw [hl]

theorem crawlList_eq_throw (listHandlers : String → Option ListHandlerBehavior)
    (req : BaseCrawlRequest) (runId : String) (t0 : Nat) (m : String)
    (lhb : ListHandlerBehavior) (hl : listHandlers req.site = some lhb)
    (ho : lhb.outcome = .error m) :
    BaseCrawler.crawlList listHandlers req runId t0 (.ok ()) =
      { contextsAllocated := 1
        events := preEvents ("Starting list crawl for " ++ req.site ++ "...") runId t0 ++
          stampWrappedList runId (t0 + 4) lhb.events ++
          [stampOwn runId (t0 + 4 + lhb.events.length) (.error m)]
        outcome := .error m } := by
  unfold BaseCrawler.crawlList
  rw [hl]
  dsimp only
  rw [ho]
  rfl

/-- The `if (!result)` check in `crawlList`: a handler that succeeds always
assigns an array, and every array (even `[]`) is truthy, so any successful
handler outcome — including the empty list — completes the run successfully. -/
theorem crawlList_eq_ok (listHandlers : String → Option ListHandlerBehavior)
    (req : BaseCrawlRequest) (runId : String) (t0 : Nat)
    (lhb : ListHandlerBehavior) (items : List CrawlResultData)
    (hl : listHandlers req.site = some lhb) (ho : lhb.outcome = .ok items) :
    BaseCrawler.crawlList listHandlers req runId t0 (.ok ()) =
      { contextsAllocated := 1
        events := preEvents ("Starting list crawl for " ++ req.site ++ "...") runId t0 ++
          stampWrappedList runId (t0 + 4) lhb.events ++
          [stampOwn runId (t0 + 4 + lhb.events.length)
             (.progress "Crawl list completed" (some 100)),
           stampOwn runId (t0 + 4 + lhb.events.length + 1)
             (.complete (some items.length)
               (some (t0 + 4 + lhb.events.length + 1 - t0)))]
        outcome := .ok items } := by
  unfold BaseCrawler.crawlList
  rw [hl]
  dsimp only
  rw [ho]
  rfl

theorem crawlDetail_eq_unsupported
    (detailHandlers : String → Option SiteHandlerBehavior)
    (req : BaseCrawlRequest) (runId : String) (t0 : Nat)
    (nav : Except String Unit) (hd : detailHandlers req.site = none) :
    BaseCrawler.crawlDetail detailHandlers req runId t0 nav =
      { contextsAllocated := 0
        events := []
        outcome := .error (unsupportedDetailMsg req) } := by
  unfold BaseCrawler.crawlDetail
  rw [hd]

theorem crawlDetail_eq_throw (detailHandlers : String → Option SiteHandlerBehavior)
    (req : BaseCrawlRequest) (runId : String) (t0 : Nat) (m : String)
    (dhb : SiteHandlerBehavior) (hd : detailHandlers req.site = some dhb)
    (ho : dhb.outcome = .error m) :
    BaseCrawler.crawlDetail detailHandlers req runId t0 (.ok ()) =
      { contextsAllocated := 1
        events := preEvents ("Starting detail crawl for " ++ req.site ++ "...") runId t0 ++
          stampWrappedList runId (t0 + 4) dhb.events ++
          [stampOwn runId (t0 + 4 + dhb.events.length) (.error m)]
        outcome := .error m } := by
  unfold BaseCrawler.crawlDetail
  rw [hd]
  dsimp only
  rw [ho]
  rfl

theorem crawlDetail_eq_noResult
    (detailHandlers : String → Option SiteHandlerBehavior)
    (req : BaseCrawlRequest) (runId : String) (t0 : Nat)
    (dhb : SiteHandlerBehavior) (hd : detailHandlers req.site = some dhb)
    (ho : dhb.outcome = .ok none) :
    BaseCrawler.crawlDetail detailHandlers req runId t0 (.ok ()) =
      { contextsAllocated := 1
        events := preEvents ("Starting detail crawl for " ++ req.site ++ "...") runId t0 ++
          stampWrappedList runId (t0 + 4) dhb.events ++
          [stampOwn runId (t0 + 4 + dhb.events.length)
             (.progress "Crawl detail completed" (some 100)),
           stampOwn runId (t0 + 4 + dhb.events.length + 1)
             (.error (failedDetailMsg req))]
        outcome := .error (failedDetailMsg req) } := by
  unfold BaseCrawler.crawlDetail
  rw [hd]
  dsimp only
  rw [ho]
  rfl

/-- `PersistenceService.persist` fulfils on every input: a missing per-category
handler is a no-op and a handler failure is caught and logged. -/
theorem persist_ok (persistHandlers : Category → Option (Except String Unit))
    (cat : Category) :
    PersistenceService.persist persistHandlers cat = .ok () := by
  unfold PersistenceService.persist
  cases persistHandlers cat with
  | none => rfl
  | some r => cases r <;> rfl

/-- `CrawlService.crawl` behaves exactly as the category's `BaseCrawler.crawl`
run: the awaited `persist` call never rejects, whatever its handler does. -/
theorem crawlService_eq (crawlers : Category → String → Option SiteHandlerBehavior)
    (persistHandlers : Category → Option (Except String Unit))
    (req : BaseCrawlRequest) (runId : String) (t0 : Nat)
    (nav : Except String Unit) :
    CrawlService.crawl crawlers persistHandlers req runId t0 nav =
      BaseCrawler.crawl (crawlers req.category) req runId t0 nav := by
  unfold CrawlService.crawl
  rw [persist_ok]
  cases ho : (BaseCrawler.crawl (crawlers req.category) req runId t0 nav).outcome <;>
    simp [ho]

/-- Every event a run delivers is either one of the orchestrator's own events
(stamped with the run's id) or the stamp of an event the handler raised. -/
theorem crawl_event_sources (siteHandlers : String → Option SiteHandlerBehavior)
    (req : BaseCrawlRequest) (runId : String) (t0 : Nat) (nav : Except String Unit)
    (hb : SiteHandlerBehavior) (hs : siteHandlers req.site = some hb) :
    ∀ e ∈ (BaseCrawler.crawl siteHandlers req runId t0 nav).events,
      e.requestId = runId ∨
        ∃ raw t', raw ∈ hb.events ∧ e = stampWrapped runId t' raw := by
  cases nav with
  | error m =>
      rw [crawl_eq_nav siteHandlers req runId t0 m hb hs]
      intro e he
      dsimp only at he
      simp only [List.mem_cons, List.not_mem_nil, or_false] at he
      rcases he with rfl | rfl | rfl <;> exact Or.inl rfl
  | ok u =>
      cases u
      cases ho : hb.outcome with
      | error m =>
          rw [crawl_eq_throw siteHandlers req runId t0 m hb hs ho]
          intro e he
          dsimp only at he
          rcases List.mem_append.mp he with h12 | h3
          · rcases List.mem_append.mp h12 with h1 | h2
            · simp only [preEvents, List.mem_cons, List.not_mem_nil, or_false] at h1
              rcases h1 with rfl | rfl | rfl | rfl <;> exact Or.inl rfl
            · exact Or.inr (stampWrappedList_mem _ _ _ _ h2)
          · simp only [List.mem_cons, List.not_mem_nil, or_false] at h3
            rw [h3]
            exact Or.inl rfl
      | ok res =>
          cases res with
          | none =>
              rw [crawl_eq_noResult siteHandlers req runId t0 hb hs ho]
              intro e he
              dsimp only at he
              rcases List.mem_append.mp he with h12 | h3
              · rcases List.mem_append.mp h12 with h1 | h2
                · simp only [preEvents, List.mem_cons, List.not_mem_nil,
                    or_false] at h1
                  rcases h1 with rfl | rfl | rfl | rfl <;> exact Or.inl rfl
                · exact Or.inr (stampWrappedList_mem _ _ _ _ h2)
              · simp only [List.mem_cons, List.not_mem_nil, or_false] at h3
                rcases h3 with rfl | rfl <;> exact Or.inl rfl
          | some item =>
              rw [crawl_eq_success siteHandlers req runId t0 hb item hs ho]
              intro e he
              dsimp only at he
              rcases List.mem_append.mp he with h12 | h3
              · rcases List.mem_append.mp h12 with h1 | h2
                · simp only [preEvents, List.mem_cons, List.not_mem_nil,
                    or_false] at h1
                  rcases h1 with rfl | rfl | rfl | rfl <;> exact Or.inl rfl
                · exact Or.inr (stampWrappedList_mem _ _ _ _ h2)
              · simp only [List.mem_cons, List.not_mem_nil, or_false] at h3
                rcases h3 with rfl | rfl <;> exact Or.inl rfl

/-- C1 counterexample: the claim says an immediate `getJob` (and the returned
snapshot) shows status `queued`.  On the very first submission — the worker is
idle — `void this.processQueue()` synchronously marks the job `running` before
`createJob` returns, so both the returned snapshot and an immediate `getJob`
show `running`, not `queued`. -/
theorem c1_counterexample :
    (createJob initState req0).1.status = CrawlJobStatus.running ∧
    CrawlJobStatus.running ≠ CrawlJobStatus.queued ∧
    getJob (createJob initState req0).2 (createJob initState req0).1.jobId =
      some (createJob initState req0).1 := by
  refine ⟨rfl, by decide, rfl⟩

/-- C1 (amended): for every submission on a reachable state, `createJob` returns
a snapshot with a fresh id (unique across all submissions), progress 0, and a
non-terminal status — `queued` when the worker loop was already processing,
`running` when it was idle (the lazily-kicked loop synchronously starts the job
before `createJob` returns); an immediate `getJob` on the returned id shows the
same snapshot, and no result is observable yet.  `createJob` itself is a pure
state transformer that never consults the run's outcome, so it never blocks on
execution. -/
theorem c1_submit_snapshot (s : ServiceState) (req : BaseCrawlRequest)
    (h : Reachable s) :
    (createJob s req).1.jobId = s.nextId ∧
    s.jobs s.nextId = none ∧
    (∀ id, (s.jobs id).isSome = true → id ≠ (createJob s req).1.jobId) ∧
    (createJob s req).1.progress = 0 ∧
    (s.isProcessing = true → (createJob s req).1.status = .queued) ∧
    (s.isProcessing = false → (createJob s req).1.status = .running) ∧
    getJob (createJob s req).2 (createJob s req).1.jobId =
      some (createJob s req).1 ∧
    isTerminal (createJob s req).1.status = false ∧
    getResult (createJob s req).2 (createJob s req).1.jobId = none := by
  have hinv := reachable_inv s h
  have hfresh : ∀ id, (s.jobs id).isSome = true → id ≠ s.nextId := by
    intro id hid hc
    rw [hc, hinv.jobsFresh s.nextId le_rfl] at hid
    exact Bool.noConfusion hid
  by_cases hb : s.isProcessing = true
  · rw [createJob_busy s req hb]
    dsimp only
    refine ⟨rfl, hinv.jobsFresh s.nextId le_rfl, hfresh, rfl, fun _ => rfl, ?_,
      ?_, rfl, ?_⟩
    · intro hf
      rw [hb] at hf
      exact Bool.noConfusion hf
    · unfold getJob
      dsimp only
      rw [show (newJobRecord s req).jobId = s.nextId from rfl, mapSet_same]
    · unfold getResult
      dsimp only
      exact hinv.resultsFresh s.nextId le_rfl
  · have hf : s.isProcessing = false := by
      cases hx : s.isProcessing
      · rfl
      · exact absurd hx hb
    rw [createJob_idle s req hinv hf]
    dsimp only
    refine ⟨rfl, hinv.jobsFresh s.nextId le_rfl, hfresh, rfl, ?_, fun _ => rfl,
      ?_, rfl, ?_⟩
    · intro ht
      rw [hf] at ht
      exact Bool.noConfusion ht
    · unfold getJob
      dsimp only
      rw [show (startedRecord (newJobRecord s req) (s.clock + 1)).jobId = s.nextId
            from rfl, mapSet_same]
    · unfold getResult
      dsimp only
      exact hinv.resultsFresh s.nextId le_rfl

/-- Witness for `c1_submit_snapshot` at the initial state and `req0`. -/
theorem c1_submit_snapshot_witness :
    Reachable initState ∧
    ((createJob initState req0).1.jobId = initState.nextId ∧
     initState.jobs initState.nextId = none ∧
     (∀ id, (initState.jobs id).isSome = true →
        id ≠ (createJob initState req0).1.jobId) ∧
     (createJob initState req0).1.progress = 0 ∧
     (initState.isProcessing = true →
        (createJob initState req0).1.status = .queued) ∧
     (initState.isProcessing = false →
        (createJob initState req0).1.status = .running) ∧
     getJob (createJob initState req0).2 (createJob initState req0).1.jobId =
       some (createJob initState req0).1 ∧
     isTerminal (createJob initState req0).1.status = false ∧
     getResult (createJob initState req0).2 (createJob initState req0).1.jobId =
       none) :=
  ⟨Relation.ReflTransGen.refl,
   c1_submit_snapshot initState req0 Relation.ReflTransGen.refl⟩

/-- C2: single-flight — in every reachable state at most one job record has
status `running`; and a `createJob` call made while the worker loop is already
processing only stores a `queued` record and appends its id to the queue: the
in-flight run, the flag, and every other record are untouched, so no second
worker loop starts. -/
theorem c2_single_flight (s : ServiceState) (req : BaseCrawlRequest)
    (h : Reachable s) :
    (∀ i j jobI jobJ, s.jobs i = some jobI → s.jobs j = some jobJ →
       jobI.status = .running → jobJ.status = .running → i = j) ∧
    (s.isProcessing = true →
       (createJob s req).2.pendingRun = s.pendingRun ∧
       (createJob s req).2.isProcessing = true ∧
       (createJob s req).2.queue = s.queue ++ [s.nextId] ∧
       (createJob s req).2.jobs s.nextId = some (newJobRecord s req) ∧
       (newJobRecord s req).status = .queued ∧
       (∀ id, id ≠ s.nextId → (createJob s req).2.jobs id = s.jobs id)) := by
  have hinv := reachable_inv s h
  constructor
  · intro i j jobI jobJ hi hj hri hrj
    have h1 := hinv.runningPending i jobI hi hri
    have h2 := hinv.runningPending j jobJ hj hrj
    rw [h1] at h2
    exact Option.some.inj h2
  · intro hb
    rw [createJob_busy s req hb]
    dsimp only
    exact ⟨rfl, hb, rfl, by rw [mapSet_same], rfl,
      fun id hid => mapSet_other _ _ _ _ hid⟩

/-- Witness for `c2_single_flight` at the state after one submission (which has
exactly one running job and an active worker). -/
theorem c2_single_flight_witness :
    Reachable exampleState ∧
    ((∀ i j jobI jobJ, exampleState.jobs i = some jobI →
        exampleState.jobs j = some jobJ → jobI.status = .running →
        jobJ.status = .running → i = j) ∧
     (exampleState.isProcessing = true →
        (createJob exampleState req0).2.pendingRun = exampleState.pendingRun ∧
        (createJob exampleState req0).2.isProcessing = true ∧
        (createJob exampleState req0).2.queue =
          exampleState.queue ++ [exampleState.nextId] ∧
        (createJob exampleState req0).2.jobs exampleState.nextId =
          some (newJobRecord exampleState req0) ∧
        (newJobRecord exampleState req0).status = .queued ∧
        (∀ id, id ≠ exampleState.nextId →
           (createJob exampleState req0).2.jobs id = exampleState.jobs id))) :=
  ⟨Relation.ReflTransGen.single (Step.submit initState req0),
   c2_single_flight exampleState req0
     (Relation.ReflTransGen.single (Step.submit initState req0))⟩

/-- C3: along any sequence of transitions from a reachable state, each job's
status moves only forward in the order `queued → running → {done, error}` —
a job observed `queued` later was `queued` before, a job observed `running` was
`queued` or `running` before (so no job re-enters `queued` or `running` from a
later stage) — and once a record reaches `done` or `error` it is never mutated
again. -/
theorem c3_monotone_terminal (s s' : ServiceState) (h : Reachable s)
    (hstar : Relation.ReflTransGen Step s s') (id : Nat)
    (job job' : CrawlJobRecord) (hj : getJob s id = some job)
    (hj' : getJob s' id = some job') :
    statusLe job.status job'.status = true ∧
    (job.status = .done ∨ job.status = .error → job' = job) ∧
    (job'.status = .queued → job.status = .queued) ∧
    (job'.status = .running →
       job.status = .queued ∨ job.status = .running) := by
  have hinv := reachable_inv s h
  unfold getJob at hj hj'
  obtain ⟨job₂, hj₂, hle, hfr⟩ := star_status s s' hinv hstar id job hj
  rw [hj'] at hj₂
  cases hj₂
  refine ⟨hle, ?_, ?_, ?_⟩
  · intro hterm
    have : isTerminal job.status = true := by
      rcases hterm with ht | ht <;> rw [ht] <;> rfl
    exact hfr this
  · intro hq
    rw [hq] at hle
    cases hst : job.status <;> rw [hst] at hle <;> first | rfl |
      exact Bool.noConfusion hle
  · intro hr
    rw [hr] at hle
    cases hst : job.status <;> rw [hst] at hle <;>
      first
        | exact Or.inl rfl
        | exact Or.inr rfl
        | exact Bool.noConfusion hle

/-- Witness for `c3_monotone_terminal` at the state after one submission, with
the trivial step sequence. -/
theorem c3_monotone_terminal_witness :
    Reachable exampleState ∧ getJob exampleState 0 = some exampleSnap ∧
    (statusLe exampleSnap.status exampleSnap.status = true ∧
     (exampleSnap.status = .done ∨ exampleSnap.status = .error →
        exampleSnap = exampleSnap) ∧
     (exampleSnap.status = .queued → exampleSnap.status = .queued) ∧
     (exampleSnap.status = .running →
        exampleSnap.status = .queued ∨ exampleSnap.status = .running)) :=
  ⟨Relation.ReflTransGen.single (Step.submit initState req0), rfl,
   c3_monotone_terminal exampleState exampleState
     (Relation.ReflTransGen.single (Step.submit initState req0))
     Relation.ReflTransGen.refl 0 exampleSnap exampleSnap rfl rfl⟩

/-- C4: in every reachable state, a stored result exists for an id exactly when
that id's job record exists with status `done`; in particular an unknown id has
no result, and no result is observable for a `queued`, `running`, or `error`
job. -/
theorem c4_result_iff_done (s : ServiceState) (h : Reachable s) (id : Nat) :
    ((getResult s id).isSome = true ↔
       ∃ job, getJob s id = some job ∧ job.status = .done) ∧
    (getJob s id = none → getResult s id = none) := by
  have hinv := reachable_inv s h
  constructor
  · exact hinv.resultsDone id
  · intro hn
    cases hr : s.results id with
    | none => exact hr
    | some d =>
        obtain ⟨job, hjob, _⟩ := (hinv.resultsDone id).mp (by rw [hr]; rfl)
        unfold getJob at hn
        rw [hn] at hjob
        exact Option.noConfusion hjob

/-- Witness for `c4_result_iff_done` at the state after one submission. -/
theorem c4_result_iff_done_witness :
    Reachable exampleState ∧
    (((getResult exampleState 0).isSome = true ↔
        ∃ job, getJob exampleState 0 = some job ∧ job.status = .done) ∧
     (getJob exampleState 0 = none → getResult exampleState 0 = none)) :=
  ⟨Relation.ReflTransGen.single (Step.submit initState req0),
   c4_result_iff_done exampleState
     (Relation.ReflTransGen.single (Step.submit initState req0)) 0⟩

/-- C5: for a request whose (category, site) pair has no registered handler,
each orchestrator entry point (`crawl`, `crawlList`, `crawlDetail`) fails
immediately with the unsupported-source error, allocating no execution context
and emitting no event; the failure passes through `CrawlService.crawl`
unchanged, and settling a job's pending run with that outcome ends the job in
status `error` carrying the same message. -/
theorem c5_unsupported_source
    (siteHandlers detailHandlers : String → Option SiteHandlerBehavior)
    (listHandlers : String → Option ListHandlerBehavior)
    (crawlers : Category → String → Option SiteHandlerBehavior)
    (persistHandlers : Category → Option (Except String Unit))
    (req : BaseCrawlRequest) (runId : String) (t0 : Nat)
    (nav : Except String Unit)
    (hs : siteHandlers req.site = none) (hl : listHandlers req.site = none)
    (hd : detailHandlers req.site = none)
    (hc : crawlers req.category req.site = none)
    (s : ServiceState) (hreach : Reachable s) (j : Nat)
    (hp : s.pendingRun = some j) :
    (BaseCrawler.crawl siteHandlers req runId t0 nav).contextsAllocated = 0 ∧
    (BaseCrawler.crawl siteHandlers req runId t0 nav).events = [] ∧
    (BaseCrawler.crawl siteHandlers req runId t0 nav).outcome =
      .error (unsupportedSiteMsg req) ∧
    (BaseCrawler.crawlList listHandlers req runId t0 nav).contextsAllocated = 0 ∧
    (BaseCrawler.crawlList listHandlers req runId t0 nav).events = [] ∧
    (BaseCrawler.crawlList listHandlers req runId t0 nav).outcome =
      .error (unsupportedListMsg req) ∧
    (BaseCrawler.crawlDetail detailHandlers req runId t0 nav).contextsAllocated
      = 0 ∧
    (BaseCrawler.crawlDetail detailHandlers req runId t0 nav).events = [] ∧
    (BaseCrawler.crawlDetail detailHandlers req runId t0 nav).outcome =
      .error (unsupportedDetailMsg req) ∧
    (CrawlService.crawl crawlers persistHandlers req runId t0 nav).outcome =
      .error (unsupportedSiteMsg req) ∧
    (∃ job', (settlePending s
        (CrawlService.crawl crawlers persistHandlers req runId t0 nav).outcome).jobs
          j = some job' ∧
      job'.status = .error ∧
      job'.errorMessage = some (unsupportedSiteMsg req)) := by
  have hinv := reachable_inv s hreach
  have hsvc : (CrawlService.crawl crawlers persistHandlers req runId t0 nav).outcome
      = .error (unsupportedSiteMsg req) := by
    rw [crawlService_eq, crawl_eq_unsupported (crawlers req.category) req runId t0 nav hc]
  rw [crawl_eq_unsupported siteHandlers req runId t0 nav hs,
    crawlList_eq_unsupported listHandlers req runId t0 nav hl,
    crawlDetail_eq_unsupported detailHandlers req runId t0 nav hd, hsvc]
  refine ⟨rfl, rfl, rfl, rfl, rfl, rfl, rfl, rfl, rfl, rfl, ?_⟩
  obtain ⟨job, _, _, hsettled, _, _, _⟩ :=
    settle_facts s (.error (unsupportedSiteMsg req)) hinv j hp
  rcases hsettled with ⟨d, hod, _, _⟩ | ⟨m, hom, hjs, _⟩
  · exact Except.noConfusion hod
  · cases Except.error.inj hom
    exact ⟨_, hjs, rfl, rfl⟩

/-- Witness for `c5_unsupported_source`: empty handler tables, the concrete
request `req0`, and the state after one submission (whose run is in flight). -/
theorem c5_unsupported_source_witness :
    Reachable exampleState ∧ exampleState.pendingRun = some 0 ∧
    ((BaseCrawler.crawl noHandlers req0 "run-1" 0 (.ok ())).contextsAllocated
        = 0 ∧
     (BaseCrawler.crawl noHandlers req0 "run-1" 0 (.ok ())).events = [] ∧
     (BaseCrawler.crawl noHandlers req0 "run-1" 0 (.ok ())).outcome =
       .error (unsupportedSiteMsg req0) ∧
     (BaseCrawler.crawlList noListHandlers req0 "run-1" 0
        (.ok ())).contextsAllocated = 0 ∧
     (BaseCrawler.crawlList noListHandlers req0 "run-1" 0 (.ok ())).events
        = [] ∧
     (BaseCrawler.crawlList noListHandlers req0 "run-1" 0 (.ok ())).outcome =
       .error (unsupportedListMsg req0) ∧
     (BaseCrawler.crawlDetail noHandlers req0 "run-1" 0
        (.ok ())).contextsAllocated = 0 ∧
     (BaseCrawler.crawlDetail noHandlers req0 "run-1" 0 (.ok ())).events = [] ∧
     (BaseCrawler.crawlDetail noHandlers req0 "run-1" 0 (.ok ())).outcome =
       .error (unsupportedDetailMsg req0) ∧
     (CrawlService.crawl (fun _ => noHandlers) failingPersist req0 "run-1" 0
        (.ok ())).outcome = .error (unsupportedSiteMsg req0) ∧
     (∃ job', (settlePending exampleState
         (CrawlService.crawl (fun _ => noHandlers) failingPersist req0 "run-1" 0
           (.ok ())).outcome).jobs 0 = some job' ∧
       job'.status = .error ∧
       job'.errorMessage = some (unsupportedSiteMsg req0))) :=
  ⟨Relation.ReflTransGen.single (Step.submit initState req0), rfl,
   c5_unsupported_source noHandlers noHandlers noListHandlers
     (fun _ => noHandlers) failingPersist req0 "run-1" 0 (.ok ()) rfl rfl rfl
     rfl exampleState
     (Relation.ReflTransGen.single (Step.submit initState req0)) 0 rfl⟩

/-- C9: a rejection while processing the in-flight job is caught by `runJob`'s
try/catch: that job alone ends with status `error`, its `errorMessage` and
`finishedAt` set; no other job's result changes, and no other job's record
changes except the next queued id's normal `queued → running` start; and
however the remaining runs turn out, draining the worker brings every id that
was still queued to a terminal status — one bad job never stops the queue. -/
theorem c9_worker_fault_isolation (s : ServiceState) (h : Reachable s)
    (j : Nat) (msg : String) (hp : s.pendingRun = some j) :
    (∃ job, s.jobs j = some job ∧
       (settlePending s (.error msg)).jobs j = some
         { job with
           status := .error
           errorMessage := some msg
           finishedAt := some s.clock
           currentStep := some "Failed" }) ∧
    (∀ k, k ≠ j → (settlePending s (.error msg)).results k = s.results k) ∧
    (∀ k, k ≠ j →
       ((settlePending s (.error msg)).jobs k = s.jobs k ∨
        ∃ jobk, s.jobs k = some jobk ∧ jobk.status = .queued ∧
          (settlePending s (.error msg)).jobs k =
            some (startedRecord jobk (s.clock + 1)))) ∧
    (∀ oracle : Nat → Except String CrawlResultData, ∀ k, k ∈ s.queue →
       ∃ jobk,
         (drain oracle s.queue.length (settlePending s (.error msg))).jobs k =
           some jobk ∧ isTerminal jobk.status = true) := by
  have hinv := reachable_inv s h
  have hinv₂ := inv_settle s (.error msg) hinv
  obtain ⟨job, hj, hrun, hsettled, hres, hothers, hqueue⟩ :=
    settle_facts s (.error msg) hinv j hp
  have hqj : j ∉ s.queue := by
    intro hmem
    obtain ⟨jobx, hjx, hstx⟩ := hinv.queueRecords j hmem
    rw [hj] at hjx
    cases hjx
    rw [hrun] at hstx
    exact CrawlJobStatus.noConfusion hstx
  refine ⟨?_, hres, ?_, ?_⟩
  · rcases hsettled with ⟨d, hod, _, _⟩ | ⟨m, hom, hjs, _⟩
    · exact Except.noConfusion hod
    · cases Except.error.inj hom
      exact ⟨job, hj, hjs⟩
  · intro k hk
    rcases hothers k hk with hsame | ⟨jobk, hjk, hstk, _, hjs⟩
    · exact Or.inl hsame
    · exact Or.inr ⟨jobk, hjk, hstk, hjs⟩
  · intro oracle k hk
    rcases hqueue with ⟨hq0, _, _⟩ | ⟨k₀, rest, hq0, hq1, hq2⟩
    · rw [hq0] at hk
      exact absurd hk (List.not_mem_nil k)
    · have hfuel :
          (settlePending s (.error msg)).queue.length +
            (if (settlePending s (.error msg)).pendingRun.isSome then 1 else 0)
            ≤ s.queue.length := by
        rw [hq1, hq2, hq0]
        simp
      rw [hq0] at hk
      rcases List.mem_cons.mp hk with hkk | hkr
      · exact drain_terminal oracle s.queue.length _ hinv₂ hfuel k
          (Or.inr (by rw [hq2, hkk]))
      · exact drain_terminal oracle s.queue.length _ hinv₂ hfuel k
          (Or.inl (by rw [hq1]; exact hkr))

/-- Witness for `c9_worker_fault_isolation` at the state after one submission. -/
theorem c9_worker_fault_isolation_witness :
    Reachable exampleState ∧ exampleState.pendingRun = some 0 ∧
    ((∃ job, exampleState.jobs 0 = some job ∧
        (settlePending exampleState (.error "boom")).jobs 0 = some
          { job with
            status := .error
            errorMessage := some "boom"
            finishedAt := some exampleState.clock
            currentStep := some "Failed" }) ∧
     (∀ k, k ≠ 0 → (settlePending exampleState (.error "boom")).results k =
        exampleState.results k) ∧
     (∀ k, k ≠ 0 →
        ((settlePending exampleState (.error "boom")).jobs k =
           exampleState.jobs k ∨
         ∃ jobk, exampleState.jobs k = some jobk ∧ jobk.status = .queued ∧
           (settlePending exampleState (.error "boom")).jobs k =
             some (startedRecord jobk (exampleState.clock + 1)))) ∧
     (∀ oracle : Nat → Except String CrawlResultData, ∀ k,
        k ∈ exampleState.queue →
        ∃ jobk, (drain oracle exampleState.queue.length
            (settlePending exampleState (.error "boom"))).jobs k = some jobk ∧
          isTerminal jobk.status = true)) :=
  ⟨Relation.ReflTransGen.single (Step.submit initState req0), rfl,
   c9_worker_fault_isolation exampleState
     (Relation.ReflTransGen.single (Step.submit initState req0)) 0 "boom" rfl⟩

/-- C10: when the crawl of a job succeeds, the job reaches `done` with its
result stored no matter what the persistence handler does: `persist` is awaited
inside the run but fulfils on every input (a missing handler is a no-op and a
handler failure is caught and logged), so `CrawlService.crawl` returns the
crawler's success unchanged and settlement marks the job `done` (progress 100,
`finishedAt` stamped) and stores the result. -/
theorem c10_persist_failure_harmless
    (crawlers : Category → String → Option SiteHandlerBehavior)
    (persistHandlers : Category → Option (Except String Unit))
    (req : BaseCrawlRequest) (runId : String) (t0 : Nat)
    (nav : Except String Unit) (item : CrawlResultData)
    (hok : (BaseCrawler.crawl (crawlers req.category) req runId t0 nav).outcome
      = .ok item)
    (s : ServiceState) (hreach : Reachable s) (j : Nat)
    (hp : s.pendingRun = some j) :
    PersistenceService.persist persistHandlers req.category = .ok () ∧
    (CrawlService.crawl crawlers persistHandlers req runId t0 nav).outcome =
      .ok item ∧
    (∃ job, s.jobs j = some job ∧
       (settlePending s
         (CrawlService.crawl crawlers persistHandlers req runId t0 nav).outcome).jobs
           j = some
         { job with
           status := .done
           progress := 100
           currentStep := some "Completed"
           finishedAt := some s.clock } ∧
       (settlePending s
         (CrawlService.crawl crawlers persistHandlers req runId t0 nav).outcome).results
           j = some item) := by
  have hinv := reachable_inv s hreach
  have hsvc : (CrawlService.crawl crawlers persistHandlers req runId t0 nav).outcome
      = .ok item := by
    rw [crawlService_eq]
    exact hok
  rw [hsvc]
  refine ⟨persist_ok persistHandlers req.category, rfl, ?_⟩
  obtain ⟨job, hj, hrun, hsettled, _, _, _⟩ :=
    settle_facts s (.ok item) hinv j hp
  rcases hsettled with ⟨d, hod, hjs, hrs⟩ | ⟨m, hom, _, _⟩
  · cases Except.ok.inj hod
    exact ⟨job, hj, hjs, hrs⟩
  · exact Except.noConfusion hom

/-- Witness for `c10_persist_failure_harmless`: a succeeding crawler, an
always-failing persistence handler, and the state after one submission. -/
theorem c10_persist_failure_harmless_witness :
    Reachable exampleState ∧ exampleState.pendingRun = some 0 ∧
    (BaseCrawler.crawl (okCrawlers req0.category) req0 "run-1" 0
       (.ok ())).outcome = .ok "item-payload" ∧
    (PersistenceService.persist failingPersist req0.category = .ok () ∧
     (CrawlService.crawl okCrawlers failingPersist req0 "run-1" 0
        (.ok ())).outcome = .ok "item-payload" ∧
     (∃ job, exampleState.jobs 0 = some job ∧
        (settlePending exampleState
          (CrawlService.crawl okCrawlers failingPersist req0 "run-1" 0
            (.ok ())).outcome).jobs 0 = some
          { job with
            status := .done
            progress := 100
            currentStep := some "Completed"
            finishedAt := some exampleState.clock } ∧
        (settlePending exampleState
          (CrawlService.crawl okCrawlers failingPersist req0 "run-1" 0
            (.ok ())).outcome).results 0 = some "item-payload")) :=
  ⟨Relation.ReflTransGen.single (Step.submit initState req0), rfl, rfl,
   c10_persist_failure_harmless okCrawlers failingPersist req0 "run-1" 0
     (.ok ()) "item-payload" rfl exampleState
     (Relation.ReflTransGen.single (Step.submit initState req0)) 0 rfl⟩

/-- C6 counterexample: the claim says a run whose extractor succeeds with an
empty result emits an error event and propagates a failure.  But `crawlList`'s
`if (!result)` check sees a truthy empty array: a list handler returning `[]`
yields a successful outcome with exactly one `complete` event and no error
event, and the empty list is returned to the caller as success. -/
theorem c6_counterexample :
    (BaseCrawler.crawlList emptyListHandlers req0 "run-1" 0 (.ok ())).outcome =
      .ok ([] : List CrawlResultData) ∧
    countBody isCompleteBody
      (BaseCrawler.crawlList emptyListHandlers req0 "run-1" 0 (.ok ())).events
      = 1 ∧
    countBody isErrorBody
      (BaseCrawler.crawlList emptyListHandlers req0 "run-1" 0 (.ok ())).events
      = 0 :=
  ⟨rfl, rfl, rfl⟩

/-- C6 (amended): when the extractor throws, each entry point emits a terminal
error event carrying the failure message, emits no complete event, and
propagates the failure; `crawl`/`crawlDetail` treat a missing (falsy)
single-item result the same way, with the generic failed-crawl message; but
`crawlList` treats any successfully returned array — including the empty one —
as success: it emits exactly one complete event, no error event, and returns
the (possibly empty) list.  Handler-raised events are assumed to be of the
data/progress kinds the extractor interface allows. -/
theorem c6_error_propagation
    (siteHandlers detailHandlers : String → Option SiteHandlerBehavior)
    (listHandlers : String → Option ListHandlerBehavior)
    (req : BaseCrawlRequest) (runId : String) (t0 : Nat)
    (shb dhb : SiteHandlerBehavior) (lhb : ListHandlerBehavior)
    (hs : siteHandlers req.site = some shb)
    (hl : listHandlers req.site = some lhb)
    (hd : detailHandlers req.site = some dhb)
    (hsubS : ∀ raw ∈ shb.events, isSubBody raw.body = true)
    (hsubL : ∀ raw ∈ lhb.events, isSubBody raw.body = true)
    (hsubD : ∀ raw ∈ dhb.events, isSubBody raw.body = true) :
    (∀ m, shb.outcome = .error m →
       (BaseCrawler.crawl siteHandlers req runId t0 (.ok ())).outcome =
         .error m ∧
       countBody isErrorBody
         (BaseCrawler.crawl siteHandlers req runId t0 (.ok ())).events = 1 ∧
       countBody isCompleteBody
         (BaseCrawler.crawl siteHandlers req runId t0 (.ok ())).events = 0 ∧
       ∃ l, (BaseCrawler.crawl siteHandlers req runId t0 (.ok ())).events =
         l ++ [stampOwn runId (t0 + 4 + shb.events.length) (.error m)]) ∧
    (shb.outcome = .ok none →
       (BaseCrawler.crawl siteHandlers req runId t0 (.ok ())).outcome =
         .error (failedCrawlMsg req) ∧
       countBody isErrorBody
         (BaseCrawler.crawl siteHandlers req runId t0 (.ok ())).events = 1 ∧
       countBody isCompleteBody
         (BaseCrawler.crawl siteHandlers req runId t0 (.ok ())).events = 0 ∧
       ∃ l, (BaseCrawler.crawl siteHandlers req runId t0 (.ok ())).events =
         l ++ [stampOwn runId (t0 + 4 + shb.events.length + 1)
           (.error (failedCrawlMsg req))]) ∧
    (∀ m, lhb.outcome = .error m →
       (BaseCrawler.crawlList listHandlers req runId t0 (.ok ())).outcome =
         .error m ∧
       countBody isErrorBody
         (BaseCrawler.crawlList listHandlers req runId t0 (.ok ())).events = 1 ∧
       countBody isCompleteBody
         (BaseCrawler.crawlList listHandlers req runId t0 (.ok ())).events = 0 ∧
       ∃ l, (BaseCrawler.crawlList listHandlers req runId t0 (.ok ())).events =
         l ++ [stampOwn runId (t0 + 4 + lhb.events.length) (.error m)]) ∧
    (∀ items, lhb.outcome = .ok items →
       (BaseCrawler.crawlList listHandlers req runId t0 (.ok ())).outcome =
         .ok items ∧
       countBody isCompleteBody
         (BaseCrawler.crawlList listHandlers req runId t0 (.ok ())).events = 1 ∧
       countBody isErrorBody
         (BaseCrawler.crawlList listHandlers req runId t0 (.ok ())).events = 0) ∧
    (∀ m, dhb.outcome = .error m →
       (BaseCrawler.crawlDetail detailHandlers req runId t0 (.ok ())).outcome =
         .error m ∧
       countBody isErrorBody
         (BaseCrawler.crawlDetail detailHandlers req runId t0 (.ok ())).events
         = 1 ∧
       countBody isCompleteBody
         (BaseCrawler.crawlDetail detailHandlers req runId t0 (.ok ())).events
         = 0) ∧
    (dhb.outcome = .ok none →
       (BaseCrawler.crawlDetail detailHandlers req runId t0 (.ok ())).outcome =
         .error (failedDetailMsg req) ∧
       countBody isErrorBody
         (BaseCrawler.crawlDetail detailHandlers req runId t0 (.ok ())).events
         = 1 ∧
       countBody isCompleteBody
         (BaseCrawler.crawlDetail detailHandlers req runId t0 (.ok ())).events
         = 0) := by
  refine ⟨?_, ?_, ?_, ?_, ?_, ?_⟩
  · intro m hm
    rw [crawl_eq_throw siteHandlers req runId t0 m shb hs hm]
    dsimp only
    refine ⟨rfl, ?_, ?_, ?_⟩
    · rw [countBody_append, countBody_append,
        countBody_stamped_zero isErrorBody sub_no_error runId (t0 + 4)
          shb.events hsubS]
      rfl
    · rw [countBody_append, countBody_append,
        countBody_stamped_zero isCompleteBody sub_no_complete runId (t0 + 4)
          shb.events hsubS]
      rfl
    · exact ⟨preEvents ("Starting crawl for " ++ req.site ++ "...") runId t0 ++
        stampWrappedList runId (t0 + 4) shb.events, rfl⟩
  · intro hm
    rw [crawl_eq_noResult siteHandlers req runId t0 shb hs hm]
    dsimp only
    refine ⟨rfl, ?_, ?_, ?_⟩
    · rw [countBody_append, countBody_append,
        countBody_stamped_zero isErrorBody sub_no_error runId (t0 + 4)
          shb.events hsubS]
      rfl
    · rw [countBody_append, countBody_append,
        countBody_stamped_zero isCompleteBody sub_no_complete runId (t0 + 4)
          shb.events hsubS]
      rfl
    · refine ⟨(preEvents ("Starting crawl for " ++ req.site ++ "...") runId t0 ++
        stampWrappedList runId (t0 + 4) shb.events) ++
        [stampOwn runId (t0 + 4 + shb.events.length)
          (.progress "Crawl completed" (some 100))], ?_⟩
      simp [List.append_assoc]
  · intro m hm
    rw [crawlList_eq_throw listHandlers req runId t0 m lhb hl hm]
    dsimp only
    refine ⟨rfl, ?_, ?_, ?_⟩
    · rw [countBody_append, countBody_append,
        countBody_stamped_zero isErrorBody sub_no_error runId (t0 + 4)
          lhb.events hsubL]
      rfl
    · rw [countBody_append, countBody_append,
        countBody_stamped_zero isCompleteBody sub_no_complete runId (t0 + 4)
          lhb.events hsubL]
      rfl
    · exact ⟨preEvents ("Starting list crawl for " ++ req.site ++ "...") runId
        t0 ++ stampWrappedList runId (t0 + 4) lhb.events, rfl⟩
  · intro items hm
    rw [crawlList_eq_ok listHandlers req runId t0 lhb items hl hm]
    dsimp only
    refine ⟨rfl, ?_, ?_⟩
    · rw [countBody_append, countBody_append,
        countBody_stamped_zero isCompleteBody sub_no_complete runId (t0 + 4)
          lhb.events hsubL]
      rfl
    · rw [countBody_append, countBody_append,
        countBody_stamped_zero isErrorBody sub_no_error runId (t0 + 4)
          lhb.events hsubL]
      rfl
  · intro m hm
    rw [crawlDetail_eq_throw detailHandlers req runId t0 m dhb hd hm]
    dsimp only
    refine ⟨rfl, ?_, ?_⟩
    · rw [countBody_append, countBody_append,
        countBody_stamped_zero isErrorBody sub_no_error runId (t0 + 4)
          dhb.events hsubD]
      rfl
    · rw [countBody_append, countBody_append,
        countBody_stamped_zero isCompleteBody sub_no_complete runId (t0 + 4)
          dhb.events hsubD]
      rfl
  · intro hm
    rw [crawlDetail_eq_noResult detailHandlers req runId t0 dhb hd hm]
    dsimp only
    refine ⟨rfl, ?_, ?_⟩
    · rw [countBody_append, countBody_append,
        countBody_stamped_zero isErrorBody sub_no_error runId (t0 + 4)
          dhb.events hsubD]
      rfl
    · rw [countBody_append, countBody_append,
        countBody_stamped_zero isCompleteBody sub_no_complete runId (t0 + 4)
          dhb.events hsubD]
      rfl

/-- Witness for `c6_error_propagation` at concrete handler tables (quiet
handlers for `crawl`/`crawlDetail`, empty-list success for `crawlList`). -/
theorem c6_error_propagation_witness :
    okHandlers req0.site = some quietOkBehavior ∧
    emptyListHandlers req0.site = some emptyListBehavior ∧
    ((∀ m, quietOkBehavior.outcome = .error m →
        (BaseCrawler.crawl okHandlers req0 "run-1" 0 (.ok ())).outcome =
          .error m ∧
        countBody isErrorBody
          (BaseCrawler.crawl okHandlers req0 "run-1" 0 (.ok ())).events = 1 ∧
        countBody isCompleteBody
          (BaseCrawler.crawl okHandlers req0 "run-1" 0 (.ok ())).events = 0 ∧
        ∃ l, (BaseCrawler.crawl okHandlers req0 "run-1" 0 (.ok ())).events =
          l ++ [stampOwn "run-1" (0 + 4 + quietOkBehavior.events.length)
            (.error m)]) ∧
     (quietOkBehavior.outcome = .ok none →
        (BaseCrawler.crawl okHandlers req0 "run-1" 0 (.ok ())).outcome =
          .error (failedCrawlMsg req0) ∧
        countBody isErrorBody
          (BaseCrawler.crawl okHandlers req0 "run-1" 0 (.ok ())).events = 1 ∧
        countBody isCompleteBody
          (BaseCrawler.crawl okHandlers req0 "run-1" 0 (.ok ())).events = 0 ∧
        ∃ l, (BaseCrawler.crawl okHandlers req0 "run-1" 0 (.ok ())).events =
          l ++ [stampOwn "run-1" (0 + 4 + quietOkBehavior.events.length + 1)
            (.error (failedCrawlMsg req0))]) ∧
     (∀ m, emptyListBehavior.outcome = .error m →
        (BaseCrawler.crawlList emptyListHandlers req0 "run-1" 0
           (.ok ())).outcome = .error m ∧
        countBody isErrorBody
          (BaseCrawler.crawlList emptyListHandlers req0 "run-1" 0
            (.ok ())).events = 1 ∧
        countBody isCompleteBody
          (BaseCrawler.crawlList emptyListHandlers req0 "run-1" 0
            (.ok ())).events = 0 ∧
        ∃ l, (BaseCrawler.crawlList emptyListHandlers req0 "run-1" 0
            (.ok ())).events =
          l ++ [stampOwn "run-1" (0 + 4 + emptyListBehavior.events.length)
            (.error m)]) ∧
     (∀ items, emptyListBehavior.outcome = .ok items →
        (BaseCrawler.crawlList emptyListHandlers req0 "run-1" 0
           (.ok ())).outcome = .ok items ∧
        countBody isCompleteBody
          (BaseCrawler.crawlList emptyListHandlers req0 "run-1" 0
            (.ok ())).events = 1 ∧
        countBody isErrorBody
          (BaseCrawler.crawlList emptyListHandlers req0 "run-1" 0
            (.ok ())).events = 0) ∧
     (∀ m, quietOkBehavior.outcome = .error m →
        (BaseCrawler.crawlDetail okHandlers req0 "run-1" 0 (.ok ())).outcome =
          .error m ∧
        countBody isErrorBody
          (BaseCrawler.crawlDetail okHandlers req0 "run-1" 0 (.ok ())).events
          = 1 ∧
        countBody isCompleteBody
          (BaseCrawler.crawlDetail okHandlers req0 "run-1" 0 (.ok ())).events
          = 0) ∧
     (quietOkBehavior.outcome = .ok none →
        (BaseCrawler.crawlDetail okHandlers req0 "run-1" 0 (.ok ())).outcome =
          .error (failedDetailMsg req0) ∧
        countBody isErrorBody
          (BaseCrawler.crawlDetail okHandlers req0 "run-1" 0 (.ok ())).events
          = 1 ∧
        countBody isCompleteBody
          (BaseCrawler.crawlDetail okHandlers req0 "run-1" 0 (.ok ())).events
          = 0)) :=
  ⟨rfl, rfl,
   c6_error_propagation okHandlers okHandlers emptyListHandlers req0 "run-1" 0
     quietOkBehavior quietOkBehavior emptyListBehavior rfl rfl rfl
     (fun raw hraw => absurd hraw (List.not_mem_nil raw))
     (fun raw hraw => absurd hraw (List.not_mem_nil raw))
     (fun raw hraw => absurd hraw (List.not_mem_nil raw))⟩

/-- C7 counterexample: the claim says an extractor cannot substitute a
different correlation id.  But the wrapped callback keeps any truthy
`requestId` the raised event already carries
(`requestId: (event as any).requestId || requestId`), so a handler event
stamped `forged-id` is delivered with `forged-id`, not the run's id. -/
theorem c7_counterexample :
    ∃ e, e ∈ (BaseCrawler.crawl forgedHandlers req0 "run-1" 0 (.ok ())).events ∧
      e.requestId = "forged-id" ∧ "forged-id" ≠ "run-1" := by
  refine ⟨stampWrapped "run-1" 4 forgedEvent, ?_, rfl, by decide⟩
  rw [crawl_eq_success forgedHandlers req0 "run-1" 0 forgedBehavior
    "item-payload" rfl rfl]
  dsimp only
  simp [preEvents, forgedBehavior, stampWrappedList]

/-- C7 (amended): every event a run delivers carries a correlation id and a
timestamp: the orchestrator's own events always carry the run's id; an event
the extractor raises is stamped with the run's id exactly when it does not
already carry a truthy `requestId` of its own — an extractor-provided truthy
id is preserved, so extractors can substitute a correlation id.  When the
extractor provides no truthy id (the `PartialStreamEvent` shape the interface
gives handlers), every event of the run carries the same run id. -/
theorem c7_correlation (siteHandlers : String → Option SiteHandlerBehavior)
    (req : BaseCrawlRequest) (runId : String) (t0 : Nat)
    (nav : Except String Unit) (hb : SiteHandlerBehavior)
    (hs : siteHandlers req.site = some hb) :
    (∀ e ∈ (BaseCrawler.crawl siteHandlers req runId t0 nav).events,
       e.requestId = runId ∨
       (e.requestId ≠ "" ∧ ∃ raw ∈ hb.events, raw.requestId = some e.requestId)) ∧
    ((∀ raw ∈ hb.events, raw.requestId = none ∨ raw.requestId = some "") →
       ∀ e ∈ (BaseCrawler.crawl siteHandlers req runId t0 nav).events,
         e.requestId = runId) := by
  have hsrc := crawl_event_sources siteHandlers req runId t0 nav hb hs
  constructor
  · intro e he
    rcases hsrc e he with h | ⟨raw, t', hraw, heq⟩
    · exact Or.inl h
    · subst heq
      cases hrid : raw.requestId with
      | none => exact Or.inl (by simp [stampWrapped, jsOrStr, hrid])
      | some rid =>
          by_cases hempty : rid = ""
          · exact Or.inl (by simp [stampWrapped, jsOrStr, hrid, hempty])
          · right
            have hreq : (stampWrapped runId t' raw).requestId = rid := by
              simp [stampWrapped, jsOrStr, hrid, hempty]
            rw [hreq]
            exact ⟨hempty, raw, hraw, hrid⟩
  · intro hnone e he
    rcases hsrc e he with h | ⟨raw, t', hraw, heq⟩
    · exact h
    · subst heq
      rcases hnone raw hraw with h0 | h0 <;> simp [stampWrapped, jsOrStr, h0]

/-- Witness for `c7_correlation` at the forged-id handler table. -/
theorem c7_correlation_witness :
    forgedHandlers req0.site = some forgedBehavior ∧
    ((∀ e ∈ (BaseCrawler.crawl forgedHandlers req0 "run-1" 0 (.ok ())).events,
        e.requestId = "run-1" ∨
        (e.requestId ≠ "" ∧
         ∃ raw ∈ forgedBehavior.events, raw.requestId = some e.requestId)) ∧
     ((∀ raw ∈ forgedBehavior.events,
         raw.requestId = none ∨ raw.requestId = some "") →
        ∀ e ∈ (BaseCrawler.crawl forgedHandlers req0 "run-1" 0 (.ok ())).events,
          e.requestId = "run-1")) :=
  ⟨rfl, c7_correlation forgedHandlers req0 "run-1" 0 (.ok ()) forgedBehavior rfl⟩

/-- C8 counterexample: the claim says a successful run's event sequence is
progress event(s), then data events, then one complete event.  A successful
run whose extractor raises one data event delivers
`progress(0/10/30/50), data, progress(100), complete` — a progress event
follows the data event — so the claimed shape is refuted while the run
succeeds. -/
theorem c8_counterexample :
    (BaseCrawler.crawl dataHandlers req0 "run-1" 0 (.ok ())).outcome =
      .ok "item-payload" ∧
    specSuccessShape
      (BaseCrawler.crawl dataHandlers req0 "run-1" 0 (.ok ())).events = false :=
  ⟨rfl, rfl⟩

/-- C8 (amended): assuming the extractor raises only data/progress events (its
interface), a run that begins (handler registered) delivers a progress(0)
event first; a successful run delivers exactly one complete event — the final
event — and no error event; a failed run delivers exactly one error event —
the final event, carrying the failure message — and no complete event.  The
orchestrator's progress(100) is emitted after the extractor's data events, so
progress and data events interleave before the terminal event. -/
theorem c8_event_order (siteHandlers : String → Option SiteHandlerBehavior)
    (req : BaseCrawlRequest) (runId : String) (t0 : Nat)
    (nav : Except String Unit) (hb : SiteHandlerBehavior)
    (hs : siteHandlers req.site = some hb)
    (hsub : ∀ raw ∈ hb.events, isSubBody raw.body = true) :
    (∃ rest, (BaseCrawler.crawl siteHandlers req runId t0 nav).events =
       stampOwn runId t0
         (.progress ("Starting crawl for " ++ req.site ++ "...") (some 0)) ::
         rest) ∧
    (∀ item,
       (BaseCrawler.crawl siteHandlers req runId t0 nav).outcome = .ok item →
       countBody isCompleteBody
         (BaseCrawler.crawl siteHandlers req runId t0 nav).events = 1 ∧
       countBody isErrorBody
         (BaseCrawler.crawl siteHandlers req runId t0 nav).events = 0 ∧
       ∃ l n d, (BaseCrawler.crawl siteHandlers req runId t0 nav).events =
         l ++ [stampOwn runId n (.complete (some 1) (some d))]) ∧
    (∀ m,
       (BaseCrawler.crawl siteHandlers req runId t0 nav).outcome = .error m →
       countBody isCompleteBody
         (BaseCrawler.crawl siteHandlers req runId t0 nav).events = 0 ∧
       countBody isErrorBody
         (BaseCrawler.crawl siteHandlers req runId t0 nav).events = 1 ∧
       ∃ l n, (BaseCrawler.crawl siteHandlers req runId t0 nav).events =
         l ++ [stampOwn runId n (.error m)]) := by
  cases nav with
  | error m₀ =>
      rw [crawl_eq_nav siteHandlers req runId t0 m₀ hb hs]
      dsimp only
      refine ⟨⟨_, rfl⟩, ?_, ?_⟩
      · intro item hitem
        exact Except.noConfusion hitem
      · intro m hm
        cases Except.error.inj hm
        exact ⟨rfl, rfl, ⟨[stampOwn runId t0
          (.progress ("Starting crawl for " ++ req.site ++ "...") (some 0)),
          stampOwn runId (t0 + 1) (.progress "Loading page..." (some 10))],
          t0 + 2, rfl⟩⟩
  | ok u =>
      cases u
      cases ho : hb.outcome with
      | error m₀ =>
          rw [crawl_eq_throw siteHandlers req runId t0 m₀ hb hs ho]
          dsimp only
          refine ⟨⟨_, rfl⟩, ?_, ?_⟩
          · intro item hitem
            exact Except.noConfusion hitem
          · intro m hm
            cases Except.error.inj hm
            refine ⟨?_, ?_, ?_⟩
            · rw [countBody_append, countBody_append,
                countBody_stamped_zero isCompleteBody sub_no_complete runId
                  (t0 + 4) hb.events hsub]
              rfl
            · rw [countBody_append, countBody_append,
                countBody_stamped_zero isErrorBody sub_no_error runId (t0 + 4)
                  hb.events hsub]
              rfl
            · exact ⟨preEvents ("Starting crawl for " ++ req.site ++ "...")
                runId t0 ++ stampWrappedList runId (t0 + 4) hb.events,
                t0 + 4 + hb.events.length, rfl⟩
      | ok res =>
          cases res with
          | none =>
              rw [crawl_eq_noResult siteHandlers req runId t0 hb hs ho]
              dsimp only
              refine ⟨⟨_, rfl⟩, ?_, ?_⟩
              · intro item hitem
                exact Except.noConfusion hitem
              · intro m hm
                cases Except.error.inj hm
                refine ⟨?_, ?_, ?_⟩
                · rw [countBody_append, countBody_append,
                    countBody_stamped_zero isCompleteBody sub_no_complete runId
                      (t0 + 4) hb.events hsub]
                  rfl
                · rw [countBody_append, countBody_append,
                    countBody_stamped_zero isErrorBody sub_no_error runId
                      (t0 + 4) hb.events hsub]
                  rfl
                · refine ⟨(preEvents ("Starting crawl for " ++ req.site ++
                    "...") runId t0 ++
                    stampWrappedList runId (t0 + 4) hb.events) ++
                    [stampOwn runId (t0 + 4 + hb.events.length)
                      (.progress "Crawl completed" (some 100))],
                    t0 + 4 + hb.events.length + 1, ?_⟩
                  simp [List.append_assoc]
          | some item₀ =>
              rw [crawl_eq_success siteHandlers req runId t0 hb item₀ hs ho]
              dsimp only
              refine ⟨⟨_, rfl⟩, ?_, ?_⟩
              · intro item hitem
                cases Except.ok.inj hitem
                refine ⟨?_, ?_, ?_⟩
                · rw [countBody_append, countBody_append,
                    countBody_stamped_zero isCompleteBody sub_no_complete runId
                      (t0 + 4) hb.events hsub]
                  rfl
                · rw [countBody_append, countBody_append,
                    countBody_stamped_zero isErrorBody sub_no_error runId
                      (t0 + 4) hb.events hsub]
                  rfl
                · refine ⟨(preEvents ("Starting crawl for " ++ req.site ++
                    "...") runId t0 ++
                    stampWrappedList runId (t0 + 4) hb.events) ++
                    [stampOwn runId (t0 + 4 + hb.events.length)
                      (.progress "Crawl completed" (some 100))],
                    t0 + 4 + hb.events.length + 1,
                    t0 + 4 + hb.events.length + 1 - t0, ?_⟩
                  simp [List.append_assoc]
              · intro m hm
                exact Except.noConfusion hm

/-- Witness for `c8_event_order` at the one-data-event handler table. -/
theorem c8_event_order_witness :
    dataHandlers req0.site = some oneDataBehavior ∧
    (∀ raw ∈ oneDataBehavior.events, isSubBody raw.body = true) ∧
    ((∃ rest, (BaseCrawler.crawl dataHandlers req0 "run-1" 0 (.ok ())).events =
        stampOwn "run-1" 0
          (.progress ("Starting crawl for " ++ req0.site ++ "...") (some 0)) ::
          rest) ∧
     (∀ item,
        (BaseCrawler.crawl dataHandlers req0 "run-1" 0 (.ok ())).outcome =
          .ok item →
        countBody isCompleteBody
          (BaseCrawler.crawl dataHandlers req0 "run-1" 0 (.ok ())).events = 1 ∧
        countBody isErrorBody
          (BaseCrawler.crawl dataHandlers req0 "run-1" 0 (.ok ())).events = 0 ∧
        ∃ l n d, (BaseCrawler.crawl dataHandlers req0 "run-1" 0 (.ok ())).events
          = l ++ [stampOwn "run-1" n (.complete (some 1) (some d))]) ∧
     (∀ m,
        (BaseCrawler.crawl dataHandlers req0 "run-1" 0 (.ok ())).outcome =
          .error m →
        countBody isCompleteBody
          (BaseCrawler.crawl dataHandlers req0 "run-1" 0 (.ok ())).events = 0 ∧
        countBody isErrorBody
          (BaseCrawler.crawl dataHandlers req0 "run-1" 0 (.ok ())).events = 1 ∧
        ∃ l n, (BaseCrawler.crawl dataHandlers req0 "run-1" 0 (.ok ())).events =
          l ++ [stampOwn "run-1" n (.error m)])) :=
  ⟨rfl, by decide,
   c8_event_order dataHandlers req0 "run-1" 0 (.ok ()) oneDataBehavior rfl
     (by decide)⟩

end CrawlBe
